import Mathlib

/-!
Verification of the BW4T collection-goal evaluator (`src/bw4t/goals.py`,
class `CollectionGoal`) against its natural-language specification.

The Python class is shallowly embedded: its mutable attributes become the
fields of a `CollectionGoal` structure, each method becomes a function from
the structure (and a `GridWorld` snapshot) to a result together with the
updated structure, and Python exceptions become an explicit `GoalError`
in an `Except` result.  Property dictionaries are modelled by the
`Props` / `Value` mutual inductive (string-keyed association lists of
tagged values, as in the source's duck-typed dicts).
-/

set_option autoImplicit false

namespace BW4T

mutual
/-- A Python value as stored in a MATRX property dictionary: a string,
an integer, a boolean, a nested dictionary, or a list of values. -/
inductive Value where
  | str : String → Value
  | num : Int → Value
  | bool : Bool → Value
  | dict : Props → Value
  | vlist : Vals → Value

/-- A property dictionary: an insertion-ordered association list from
string keys to `Value`s (Python `dict`s preserve insertion order). -/
inductive Props where
  | nil : Props
  | cons : String → Value → Props → Props

/-- A Python list of values. -/
inductive Vals where
  | nil : Vals
  | cons : Value → Vals → Vals
end

mutual
/-- Structural equality of values, as Python `==` on these data. -/
def Value.beq : Value → Value → Bool
  | .str a, .str b => a == b
  | .num a, .num b => a == b
  | .bool a, .bool b => a == b
  | .dict a, .dict b => Props.beq a b
  | .vlist a, .vlist b => Vals.beq a b
  | _, _ => false

/-- Structural equality of property dictionaries (order-sensitive; the
source never compares whole dicts for equality, only `(key, value)` pairs,
so only pair-level equality matters). -/
def Props.beq : Props → Props → Bool
  | .nil, .nil => true
  | .cons k v r, .cons k2 v2 r2 => k == k2 && Value.beq v v2 && Props.beq r r2
  | _, _ => false

/-- Structural equality of value lists. -/
def Vals.beq : Vals → Vals → Bool
  | .nil, .nil => true
  | .cons v r, .cons v2 r2 => Value.beq v v2 && Vals.beq r r2
  | _, _ => false
end

instance : BEq Value := ⟨Value.beq⟩

/-- Python truthiness of a value (`bool(v)`), used by the source for
`obj.properties['is_drop_off_target']` in a boolean context. -/
def Value.truthy : Value → Bool
  | .str s => s ≠ ""
  | .num n => n ≠ 0
  | .bool b => b
  | .dict .nil => false
  | .dict _ => true
  | .vlist .nil => false
  | .vlist _ => true

/-- `k in d.keys()`. -/
def Props.hasKey : Props → String → Bool
  | .nil, _ => false
  | .cons k _ r, key => k == key || Props.hasKey r key

/-- `d[k]` as an option (first binding of the key; keys are unique in
dictionaries produced by Python). -/
def Props.lookup : Props → String → Option Value
  | .nil, _ => none
  | .cons k v r, key => if k == key then some v else Props.lookup r key

/-- `(k, v) in d.items()`. -/
def Props.memPair : Props → String → Value → Bool
  | .nil, _, _ => false
  | .cons k v r, key, val => (k == key && Value.beq v val) || Props.memPair r key val

/-- `d1.items() <= d2.items()`: every key/value pair of `d1` is a
key/value pair of `d2` (the source's requirement-matching test,
`goals.py` line 99 and line 129). -/
def Props.subsetOf : Props → Props → Bool
  | .nil, _ => true
  | .cons k v r, other => Props.memPair other k v && Props.subsetOf r other

/-- `len(d)`. -/
def Props.length : Props → Nat
  | .nil => 0
  | .cons _ _ r => Props.length r + 1

/-- Concatenation of two association lists (helper for flattening). -/
def Props.append : Props → Props → Props
  | .nil, q => q
  | .cons k v rest, q => .cons k v (Props.append rest q)

/-- Prepends `k ++ "."` to every key (helper for flattening nested
dictionaries into path keys). -/
def Props.prefixKeys (k : String) : Props → Props
  | .nil => .nil
  | .cons k2 v rest => .cons (k ++ "." ++ k2) v (Props.prefixKeys k rest)

mutual
/-- Modelled from the spec: the source calls
`CollectionGoal.__flatten_dict` (`goals.py` lines 98 and 127) but that
method's body is not part of the repository sources; per the spec
(§3, §4.1) flattening recursively composes path keys, turning a nested
mapping `{"a": {"b": 1}}` into `"a.b" -> 1` and leaving non-dictionary
values untouched. -/
def flattenProps : Props → Props
  | .nil => .nil
  | .cons k v rest => Props.append (flattenEntry k v) (flattenProps rest)

/-- Modelled from the spec: flattening of one binding `k -> v`; a nested
dictionary is flattened recursively with `k ++ "."` prepended to its
keys, any other value is kept as the single binding `k -> v`. -/
def flattenEntry (k : String) : Value → Props
  | .dict d => Props.prefixKeys k (flattenProps d)
  | v => .cons k v .nil
end

/-- Whether a value is a nested dictionary. -/
def Value.isDict : Value → Bool
  | .dict _ => true
  | _ => false

/-- A property dictionary is flat when none of its values is a nested
dictionary. -/
def Props.isFlat : Props → Bool
  | .nil => true
  | .cons _ v r => !v.isDict && Props.isFlat r

/-- An object identifier (MATRX `obj_id`). -/
abbrev ObjId := String

/-- A grid coordinate. -/
abbrev Loc := Int × Int

/-- A world object or agent as the goal sees it: a location and a
property dictionary. -/
structure WorldObj where
  location : Loc
  properties : Props

/-- The per-tick snapshot of the `GridWorld` host that `goal_reached`
reads: the current tick counter, the environment objects and the
registered agents (both insertion-ordered association lists, as the
host's dictionaries). -/
structure GridWorld where
  current_nr_ticks : Nat
  environment_objects : List (ObjId × WorldObj)
  registered_agents : List (ObjId × WorldObj)

/-- `{**all_objs, **all_agents}` lookup: agents shadow environment
objects with the same id (`goals.py` line 85). -/
def GridWorld.lookupAll (w : GridWorld) (id : ObjId) : Option WorldObj :=
  match w.registered_agents.lookup id with
  | some o => some o
  | none => w.environment_objects.lookup id

/-- Modelled from the spec: `grid_world.get_objects_in_range(loc,
sense_range=0, object_type=None)` is host code (MATRX); per spec §6,
`ObjectsAt(location, radius=0)` returns the occupants exactly at the
coordinate, over the world's objects and agents. -/
def GridWorld.objectsAt (w : GridWorld) (loc : Loc) : List ObjId :=
  ((w.environment_objects ++ w.registered_agents).filter
    (fun p => p.2.location == loc)).map (·.1)

/-- The ids gathered over all drop-off locations
(`goals.py` lines 79-80): per location, the zero-radius query, results
concatenated in location order. -/
def GridWorld.objectsAtLocs (w : GridWorld) (locs : List Loc) : List ObjId :=
  locs.flatMap w.objectsAt

/-- A Python exception surfaced by the evaluator. -/
inductive GoalError where
  /-- `ValueError`: raised by `goal_reached` when no drop-off location
  was found (`goals.py` lines 32-34). -/
  | valueError : GoalError
  /-- `IndexError`: `self.__target[rank]` with `rank` out of bounds
  (`goals.py` line 128). -/
  | indexError : GoalError
  /-- `ZeroDivisionError`: division by `len(self.__target) == 0`
  (`goals.py` lines 160 and 166). -/
  | zeroDivisionError : GoalError
  /-- `KeyError`: dictionary indexing with an absent key. -/
  | keyError : GoalError
  /-- `TypeError`: e.g. `len(None)`. -/
  | typeError : GoalError
  deriving DecidableEq

/-- The mutable state of a `CollectionGoal` instance: the constructor
arguments and the private attributes of `goals.py` lines 13-24.
`is_done` is the flag inherited from the host's `WorldGoal` base class
(modelled from the spec: §3 GoalState starts with `done = false`). -/
structure CollectionGoal where
  area_name : String
  target_name : String
  in_order : Bool
  drop_off_locs : Option (List Loc)
  target : Option (List Props)
  dropped_objects : List (ObjId × Nat)
  attained_rank : Nat
  is_done : Bool

/-- `CollectionGoal.__init__` (`goals.py` lines 13-24). -/
def CollectionGoal.init (name targetName : String) (inOrder : Bool) : CollectionGoal :=
  { area_name := name
    target_name := targetName
    in_order := inOrder
    drop_off_locs := none
    target := none
    dropped_objects := []
    attained_rank := 0
    is_done := false }

/-- `CollectionGoal.__find_drop_off_locations` (`goals.py` lines 46-52):
the locations of all environment objects whose `name` property equals
the goal's area name, in world iteration order. -/
def findDropOffLocations (areaName : String) (w : GridWorld) : List Loc :=
  (w.environment_objects.filter
    (fun p => p.2.properties.lookup "name" == some (.str areaName))).map (·.2.location)

/-- Extracts a requirement list from a `collection_objects` property
value: a Python list of dictionaries (`goals.py` line 61 copies it
verbatim; a non-list or non-dictionary entry would be a
`MalformedRequirement`, fatal at construction per spec §7, and is
outside this model). -/
def Vals.toReqList : Vals → List Props
  | .nil => []
  | .cons (.dict d) r => d :: Vals.toReqList r
  | .cons _ r => Vals.toReqList r

/-- Requirement list carried by a value (empty for anything that is not
a list). -/
def Value.toReqList : Value → List Props
  | .vlist vs => vs.toReqList
  | _ => []

/-- `CollectionGoal.__find_collection_objects` (`goals.py` lines 54-66):
scans the environment objects for one with `collection_zone_name` equal
to the goal's area name, a `collection_objects` property, and a truthy
`is_drop_off_target`; the last match wins (the loop overwrites), and the
result is the empty list when nothing matches (the source then emits a
warning, which does not alter control flow). -/
def findCollectionObjects (areaName : String) (w : GridWorld) : List Props :=
  w.environment_objects.foldl
    (fun acc p =>
      let props := p.2.properties
      if props.lookup "collection_zone_name" == some (.str areaName)
          && props.hasKey "collection_objects"
          && (match props.lookup "is_drop_off_target" with
              | some v => v.truthy
              | none => false) then
        match props.lookup "collection_objects" with
        | some v => v.toReqList
        | none => acc
      else acc) []

/-- The marker-exclusion guard of `goals.py` lines 93-96: an object is
skipped iff its (unflattened) properties have both the `is_drop_off` and
`collection_area_name` keys (a collection drop-off tile), or all three
of `is_drop_off_target`, `collection_zone_name` and `is_invisible` (a
collection target); only key presence is tested, not values. -/
def markerExcluded (props : Props) : Bool :=
  (props.hasKey "is_drop_off" && props.hasKey "collection_area_name")
    || (props.hasKey "is_drop_off_target" && props.hasKey "collection_zone_name"
        && props.hasKey "is_invisible")

/-- The inner requirement loop of `goals.py` lines 97-100: for each
requirement set in turn the object's property dictionary is re-assigned
to its flattening and then tested for `req_props.items() <=
obj_props.items()`; the object qualifies if any iteration tests true
(the loop has no break, so repeated `detected_objs[obj_id] = curr_tick`
assignments are idempotent). -/
def qualifiesLoop : List Props → Props → Bool
  | [], _ => false
  | req :: rest, props =>
    let props1 := flattenProps props
    req.subsetOf props1 || qualifiesLoop rest props1

/-- `id in ledger.keys()` for an association list keyed by object id. -/
def hasId (l : List (ObjId × Nat)) (id : ObjId) : Bool :=
  l.any (fun q => q.1 == id)

/-- Appends `(id, tick)` unless the id is already a key (Python `dict`
assignment of an identical value). -/
def insertIfAbsent (acc : List (ObjId × Nat)) (id : ObjId) (tick : Nat) :
    List (ObjId × Nat) :=
  if hasId acc id then acc else acc ++ [(id, tick)]

/-- The per-object body of the detection loop (`goals.py` lines 90-100):
an id qualifies when its object exists in the snapshot (the ids come
from the same snapshot, so the lookup always succeeds and the source's
potential `KeyError` cannot fire), is not skipped by the marker guard,
and matches some requirement in the loop. -/
def objQualifies (w : GridWorld) (target : List Props) (id : ObjId) : Bool :=
  match w.lookupAll id with
  | none => false
  | some obj => !markerExcluded obj.properties && qualifiesLoop target obj.properties

/-- The `detected_objs` dictionary built by `goals.py` lines 89-100:
iterate the gathered ids and record every qualifying object with the
current tick (repeated detection of the same id re-assigns the same
tick, a no-op). -/
def detectedObjs (w : GridWorld) (target : List Props) (objIds : List ObjId)
    (tick : Nat) : List (ObjId × Nat) :=
  objIds.foldl
    (fun acc id =>
      if objQualifies w target id then insertIfAbsent acc id tick else acc) []

/-- The addition half of the ledger diff (`goals.py` lines 104-108):
each detected id not yet in the ledger is appended with its detection
tick; the boolean records whether anything was added. -/
def addNew (ledger detected : List (ObjId × Nat)) : List (ObjId × Nat) × Bool :=
  detected.foldl
    (fun st p =>
      if hasId st.1 p.1 then st else (st.1 ++ [p], true))
    (ledger, false)

/-- The removal half of the ledger diff (`goals.py` lines 110-117):
every ledger id absent from the detected set is removed; the boolean
records whether anything was removed. -/
def removeGone (ledger detected : List (ObjId × Nat)) : List (ObjId × Nat) × Bool :=
  (ledger.filter (fun p => hasId detected p.1),
   !(ledger.filter (fun p => !hasId detected p.1)).isEmpty)

/-- The full ledger diff of `goals.py` lines 102-117: additions then
removals, with `is_updated` true iff either half changed something. -/
def ledgerDiff (ledger detected : List (ObjId × Nat)) : List (ObjId × Nat) × Bool :=
  let a := addNew ledger detected
  let r := removeGone a.1 detected
  (r.1, a.2 || r.2)

/-- Stable insertion of a ledger entry into a tick-sorted list: the
entry goes after every entry with a tick less than or equal to its own
(so Python's stable `sorted(..., key=lambda x: x[1])` is reproduced,
ties keeping insertion order). -/
def insertByTick (p : ObjId × Nat) : List (ObjId × Nat) → List (ObjId × Nat)
  | [] => [p]
  | q :: rest => if q.2 ≤ p.2 then q :: insertByTick p rest else p :: q :: rest

/-- `sorted(self.__dropped_objects.items(), key=lambda x: x[1])`
(`goals.py` line 123): stable ascending sort by detection tick. -/
def sortByTick (l : List (ObjId × Nat)) : List (ObjId × Nat) :=
  l.foldl (fun acc p => insertByTick p acc) []

/-- The ordered-mode rank walk of `goals.py` lines 124-133: walk the
tick-sorted entries, flatten the object's current properties, index
`self.__target[rank]` (raising `IndexError` when `rank` is out of
bounds), increment the rank on a match and stop at the first mismatch. -/
def rankWalk (w : GridWorld) (target : List Props) :
    List (ObjId × Nat) → Nat → Except GoalError Nat
  | [], rank => .ok rank
  | (id, _) :: rest, rank =>
    match w.lookupAll id with
    | none => .error .keyError
    | some obj =>
      let props := flattenProps obj.properties
      match target.get? rank with
      | none => .error .indexError
      | some req =>
        if req.subsetOf props then rankWalk w target rest (rank + 1)
        else .ok rank

/-- The detected set computed by `__check_completion` for the state's
cached drop-off locations and target (`goals.py` lines 79-100). -/
def currentDetected (s : CollectionGoal) (w : GridWorld) : List (ObjId × Nat) :=
  detectedObjs w (s.target.getD []) (w.objectsAtLocs (s.drop_off_locs.getD []))
    w.current_nr_ticks

/-- `CollectionGoal.__check_completion` (`goals.py` lines 68-149): early
return once done; otherwise diff the detected objects against the
ledger, then apply the ordered or unordered completion policy when the
ledger changed, and return the previous value otherwise.  The updated
ledger (and, in ordered mode, the attained rank) is written back into
the state; on `IndexError` inside the rank walk the ledger update
persists but the rank does not (the Python assignment at line 138 sits
after the loop). -/
def checkCompletion (s : CollectionGoal) (w : GridWorld) :
    Except GoalError Bool × CollectionGoal :=
  if s.is_done then (.ok s.is_done, s)
  else
    let target := s.target.getD []
    let detected := currentDetected s w
    let diff := ledgerDiff s.dropped_objects detected
    let ledger2 := diff.1
    let is_updated := diff.2
    if s.in_order && is_updated then
      match rankWalk w target (sortByTick ledger2) 0 with
      | .error e => (.error e, { s with dropped_objects := ledger2 })
      | .ok rank =>
        (.ok (rank == target.length),
         { s with dropped_objects := ledger2, attained_rank := rank })
    else if is_updated then
      (.ok (ledger2.length == target.length), { s with dropped_objects := ledger2 })
    else
      (.ok s.is_done, { s with dropped_objects := ledger2 })

/-- `CollectionGoal.goal_reached` (`goals.py` lines 26-44): lazily
resolve the drop-off locations (raising `ValueError` when none are
found, with the empty list already cached), lazily resolve the target,
run the completion check, store its result in `is_done` and return it.
Mutations performed before an exception persist in the returned state,
as they do on the Python object. -/
def goalReached (s : CollectionGoal) (w : GridWorld) :
    Except GoalError Bool × CollectionGoal :=
  let afterLocs : Except GoalError CollectionGoal × CollectionGoal :=
    match s.drop_off_locs with
    | none =>
      let locs := findDropOffLocations s.area_name w
      let s1 := { s with drop_off_locs := some locs }
      if locs.isEmpty then (.error .valueError, s1) else (.ok s1, s1)
    | some _ => (.ok s, s)
  match afterLocs.1 with
  | .error e => (.error e, afterLocs.2)
  | .ok s1 =>
    let s2 :=
      match s1.target with
      | none => { s1 with target := some (findCollectionObjects s1.area_name w) }
      | some _ => s1
    let res := checkCompletion s2 w
    match res.1 with
    | .error e => (.error e, res.2)
    | .ok b => (.ok b, { res.2 with is_done := b })

/-- `CollectionGoal.get_progress` (`goals.py` lines 151-168): `1.0` once
done; otherwise the attained rank (ordered) or the ledger size
(unordered) divided by the number of requirements — a true Python
`ZeroDivisionError` when the requirement list is empty, and a
`TypeError` (`len(None)`) when the target was never resolved. -/
def getProgress (s : CollectionGoal) : Except GoalError ℚ :=
  if s.is_done then .ok 1
  else
    match s.target with
    | none => .error .typeError
    | some tgt =>
      if s.in_order then
        if tgt.length = 0 then .error .zeroDivisionError
        else .ok ((s.attained_rank : ℚ) / (tgt.length : ℚ))
      else
        if tgt.length = 0 then .error .zeroDivisionError
        else .ok ((s.dropped_objects.length : ℚ) / (tgt.length : ℚ))

/-! ### Claim-side (specification-worded) definitions

These restate policies in the specification's own words, to be compared
with the evaluator's computation in the refinement-style claims. -/

/-- Specification wording of the ordered rank walk: walk the (already
tick-sorted) ledger entries, matching entry `i` against
`requirements[attainedRank]` (the head of the remaining requirement
list), incrementing the rank while each entry matches its requirement
and stopping at the first mismatch. -/
def specRank (w : GridWorld) : List Props → List (ObjId × Nat) → Nat
  | _, [] => 0
  | [], _ :: _ => 0
  | req :: rs, (id, _) :: es =>
    match w.lookupAll id with
    | none => 0
    | some obj =>
      if req.subsetOf (flattenProps obj.properties) then specRank w rs es + 1
      else 0

/-- Specification wording of the unordered completion policy:
satisfied iff `|ledger| == |requirements|`. -/
def specUnorderedSat (ledger : List (ObjId × Nat)) (reqs : List Props) : Bool :=
  ledger.length == reqs.length

/-- Specification wording of the ordered completion policy: sort the
ledger by arrival tick ascending, walk it, and report satisfied iff the
attained rank equals the number of requirements. -/
def specOrderedSat (w : GridWorld) (reqs : List Props)
    (ledger : List (ObjId × Nat)) : Bool :=
  specRank w reqs (sortByTick ledger) == reqs.length

/-- Specification wording of zone resolution (spec §4.2): the locations
of the environment objects carrying the drop-off-tile-for-this-zone
attributes, i.e. an `is_drop_off` marker whose `collection_area_name`
equals the zone name. -/
def specDropOffLocations (areaName : String) (w : GridWorld) : List Loc :=
  (w.environment_objects.filter
    (fun p => p.2.properties.hasKey "is_drop_off"
      && p.2.properties.lookup "collection_area_name" == some (.str areaName))).map
    (·.2.location)

/-- Runs `goal_reached` over a sequence of tick snapshots, collecting
each call's outcome and the final evaluator state. -/
def runGoal (s : CollectionGoal) : List GridWorld →
    List (Except GoalError Bool) × CollectionGoal
  | [] => ([], s)
  | w :: ws =>
    let r := goalReached s w
    let rest := runGoal r.2 ws
    (r.1 :: rest.1, rest.2)

/-- The evaluator states reachable from a given initial state by some
sequence of `goal_reached` calls (on arbitrary tick snapshots). -/
inductive Reachable (g : CollectionGoal) : CollectionGoal → Prop where
  | refl : Reachable g g
  | step : ∀ (s : CollectionGoal) (w : GridWorld),
      Reachable g s → Reachable g (goalReached s w).2

/-- Invariant of every unordered evaluator state: the stored `is_done`
flag always agrees with the unordered count comparison over the stored
ledger (for a resolved non-empty target), the ledger and flag are still
pristine while the target is unresolved, and a resolved target implies
resolved drop-off locations. -/
def UnorderedInv (s : CollectionGoal) : Prop :=
  s.in_order = false ∧
  (s.target = none → s.is_done = false ∧ s.dropped_objects = []) ∧
  (∀ reqs : List Props, s.target = some reqs → reqs ≠ [] →
    s.is_done = specUnorderedSat s.dropped_objects reqs) ∧
  (s.target ≠ none → s.drop_off_locs ≠ none)

/-! ### Concrete fixtures

Small worlds used to witness the theorems (and to refute claims that
fail): a drop-off zone named `Z` at `(0, 0)`, a collection target linked
to it, and coloured blocks. -/

/-- Builds a `Vals` list of requirement dictionaries. -/
def valsOfReqs : List Props → Vals
  | [] => .nil
  | d :: rest => .cons (.dict d) (valsOfReqs rest)

/-- The requirement `{color: red}`. -/
def pRed : Props := .cons "color" (.str "red") .nil

/-- The requirement `{color: blue}`. -/
def pBlue : Props := .cons "color" (.str "blue") .nil

/-- A collection drop-off tile for zone `Z` at the origin (its `name`
property equals the zone name, as the builder sets it). -/
def tileZ : WorldObj :=
  { location := (0, 0)
    properties := .cons "name" (.str "Z") (.cons "is_drop_off" (.bool true)
      (.cons "collection_area_name" (.str "Z") .nil)) }

/-- A collection target for zone `Z` carrying the given requirement
list. -/
def markerZ (reqs : List Props) : WorldObj :=
  { location := (0, 0)
    properties :=
      .cons "name" (.str "Z_target")
      (.cons "collection_zone_name" (.str "Z")
      (.cons "collection_objects" (.vlist (valsOfReqs reqs))
      (.cons "is_drop_off_target" (.bool true)
      (.cons "is_invisible" (.bool true) .nil)))) }

/-- A coloured block at a location. -/
def blockAt (loc : Loc) (color : String) : WorldObj :=
  { location := loc, properties := .cons "color" (.str color) .nil }

/-- A freshly constructed unordered goal for zone `Z`. -/
def g0 : CollectionGoal := CollectionGoal.init "Z" "Z_target" false

/-- A freshly constructed ordered (`in_order=True`) goal for zone `Z`. -/
def g0o : CollectionGoal := CollectionGoal.init "Z" "Z_target" true

/-- Tick 1, zone `Z` requiring one red block, a red block dropped. -/
def w1 : GridWorld :=
  { current_nr_ticks := 1
    environment_objects :=
      [("tile0", tileZ), ("tgt0", markerZ [pRed]), ("b1", blockAt (0, 0) "red")]
    registered_agents := [] }

/-- Tick 1, zone `Z` with its tile but no collection target at all. -/
def w4 : GridWorld :=
  { current_nr_ticks := 1
    environment_objects := [("tile0", tileZ)]
    registered_agents := [] }

/-- Tick 1, one red required but three red blocks dropped. -/
def w5 : GridWorld :=
  { current_nr_ticks := 1
    environment_objects :=
      [("tile0", tileZ), ("tgt0", markerZ [pRed]),
       ("b1", blockAt (0, 0) "red"), ("b2", blockAt (0, 0) "red"),
       ("b3", blockAt (0, 0) "red")]
    registered_agents := [] }

/-- Tick 1, requirements `[red, blue]`, only a blue block dropped. -/
def w2a : GridWorld :=
  { current_nr_ticks := 1
    environment_objects :=
      [("tile0", tileZ), ("tgt0", markerZ [pRed, pBlue]),
       ("bb", blockAt (0, 0) "blue")]
    registered_agents := [] }

/-- Tick 2, requirements `[red, blue]`, the red block arriving after the
blue one. -/
def w2b : GridWorld :=
  { current_nr_ticks := 2
    environment_objects :=
      [("tile0", tileZ), ("tgt0", markerZ [pRed, pBlue]),
       ("bb", blockAt (0, 0) "blue"), ("br", blockAt (0, 0) "red")]
    registered_agents := [] }

/-- Tick 1, requirements `[red, blue]`, red and blue both present (red
listed first). -/
def w3a : GridWorld :=
  { current_nr_ticks := 1
    environment_objects :=
      [("tile0", tileZ), ("tgt0", markerZ [pRed, pBlue]),
       ("br", blockAt (0, 0) "red"), ("bb", blockAt (0, 0) "blue")]
    registered_agents := [] }

/-- Tick 1, requirements `[red, blue]`, red and blue both present (blue
listed first). -/
def w3b : GridWorld :=
  { current_nr_ticks := 1
    environment_objects :=
      [("tile0", tileZ), ("tgt0", markerZ [pRed, pBlue]),
       ("bb", blockAt (0, 0) "blue"), ("br", blockAt (0, 0) "red")]
    registered_agents := [] }

/-- An ordinary object (no drop-off attributes) that merely bears the
name `Z`. -/
def decoy : WorldObj :=
  { location := (5, 5), properties := .cons "name" (.str "Z") .nil }

/-- A genuine drop-off tile for zone `Z` whose `name` property is the
class default `Collection_zone` rather than `Z`. -/
def realTile : WorldObj :=
  { location := (1, 1)
    properties := .cons "name" (.str "Collection_zone")
      (.cons "is_drop_off" (.bool true)
      (.cons "collection_area_name" (.str "Z") .nil)) }

/-- Tick 1: a decoy named `Z` plus the genuine tile for `Z`. -/
def w8a : GridWorld :=
  { current_nr_ticks := 1
    environment_objects := [("decoy", decoy), ("tile1", realTile)]
    registered_agents := [] }

/-- Tick 1: only the genuine tile for `Z` (whose `name` is not `Z`). -/
def w8b : GridWorld :=
  { current_nr_ticks := 1
    environment_objects := [("tile1", realTile)]
    registered_agents := [] }

/-- Tick 1, ordered requirements `[red, blue]`: only the blue block
`Y`. -/
def w9a : GridWorld :=
  { current_nr_ticks := 1
    environment_objects :=
      [("tile0", tileZ), ("tgt0", markerZ [pRed, pBlue]),
       ("Y", blockAt (0, 0) "blue")]
    registered_agents := [] }

/-- Tick 2: the red block `X` has joined the blue block `Y`. -/
def w9b : GridWorld :=
  { current_nr_ticks := 2
    environment_objects :=
      [("tile0", tileZ), ("tgt0", markerZ [pRed, pBlue]),
       ("Y", blockAt (0, 0) "blue"), ("X", blockAt (0, 0) "red")]
    registered_agents := [] }

/-- Tick 3: the same two blocks, but their colours swapped in place
(both still qualify, so the id set is unchanged). -/
def w9c : GridWorld :=
  { current_nr_ticks := 3
    environment_objects :=
      [("tile0", tileZ), ("tgt0", markerZ [pRed, pBlue]),
       ("Y", blockAt (0, 0) "red"), ("X", blockAt (0, 0) "blue")]
    registered_agents := [] }

/-- The evaluator state after the blue-only tick of the ordered
scenario. -/
def s2a : CollectionGoal := (goalReached g0o w2a).2

/-- The ordered-mutation scenario after tick 1. -/
def s9a : CollectionGoal := (goalReached g0o w9a).2

/-- The ordered-mutation scenario after tick 2. -/
def s9b : CollectionGoal := (goalReached s9a w9b).2

/-- The empty-target scenario after tick 1 (target resolved to the empty
requirement list). -/
def s4 : CollectionGoal := (goalReached g0 w4).2

/-- The unordered `[red, blue]` goal after one tick of `w2a` (only the
blue block present). -/
def sUa : CollectionGoal := (goalReached g0 w2a).2

/-- An unordered goal for zone `Z` with its zone and target already
resolved to `[(0, 0)]` and `[red, blue]`. -/
def gRB : CollectionGoal :=
  { CollectionGoal.init "Z" "Z_target" false with
      drop_off_locs := some [(0, 0)], target := some [pRed, pBlue] }

/-- An ordered goal for zone `Z` with its zone and target already
resolved to `[(0, 0)]` and `[red, blue]`. -/
def gRBo : CollectionGoal :=
  { CollectionGoal.init "Z" "Z_target" true with
      drop_off_locs := some [(0, 0)], target := some [pRed, pBlue] }

/-! ### Structural lemmas about the evaluator -/

theorem hasId_iff (l : List (ObjId × Nat)) (id : ObjId) :
    hasId l id = true ↔ ∃ p ∈ l, p.1 = id := by
  simp [hasId, List.any_eq_true]

theorem CollectionGoal.set_done_self (s : CollectionGoal) (h : s.is_done = true) :
    { s with is_done := true } = s := by
  cases s
  simp_all

theorem checkCompletion_done (s : CollectionGoal) (w : GridWorld)
    (h : s.is_done = true) : checkCompletion s w = (.ok true, s) := by
  simp [checkCompletion, h]

theorem checkCompletion_in_order (s : CollectionGoal) (w : GridWorld) :
    (checkCompletion s w).2.in_order = s.in_order := by
  simp only [checkCompletion]
  repeat' split
  all_goals rfl

theorem checkCompletion_is_done (s : CollectionGoal) (w : GridWorld) :
    (checkCompletion s w).2.is_done = s.is_done := by
  simp only [checkCompletion]
  repeat' split
  all_goals rfl

theorem checkCompletion_drop_off_locs (s : CollectionGoal) (w : GridWorld) :
    (checkCompletion s w).2.drop_off_locs = s.drop_off_locs := by
  simp only [checkCompletion]
  repeat' split
  all_goals rfl

theorem checkCompletion_target (s : CollectionGoal) (w : GridWorld) :
    (checkCompletion s w).2.target = s.target := by
  simp only [checkCompletion]
  repeat' split
  all_goals rfl

theorem checkCompletion_ledger (s : CollectionGoal) (w : GridWorld)
    (h : s.is_done = false) :
    (checkCompletion s w).2.dropped_objects
      = (ledgerDiff s.dropped_objects (currentDetected s w)).1 := by
  simp only [checkCompletion, h]
  repeat' split
  all_goals simp_all

theorem goalReached_resolved (s : CollectionGoal) (w : GridWorld)
    (l : List Loc) (t : List Props)
    (h1 : s.drop_off_locs = some l) (h2 : s.target = some t) :
    goalReached s w =
      match (checkCompletion s w).1 with
      | .error e => (.error e, (checkCompletion s w).2)
      | .ok b => (.ok b, { (checkCompletion s w).2 with is_done := b }) := by
  simp [goalReached, h1, h2]

theorem goalReached_done (s : CollectionGoal) (w : GridWorld)
    (l : List Loc) (t : List Props)
    (h1 : s.drop_off_locs = some l) (h2 : s.target = some t)
    (h : s.is_done = true) :
    goalReached s w = (.ok true, s) := by
  rw [goalReached_resolved s w l t h1 h2, checkCompletion_done s w h]
  simp [CollectionGoal.set_done_self s h]

/-! ### Flattening lemmas -/

theorem flattenEntry_of_not_dict {v : Value} (k : String) (h : v.isDict = false) :
    flattenEntry k v = .cons k v .nil := by
  cases v <;> simp_all [flattenEntry, Value.isDict]

theorem isFlat_append : ∀ (p q : Props), p.isFlat = true → q.isFlat = true →
    (p.append q).isFlat = true
  | .nil, q, _, hq => by simpa [Props.append]
  | .cons k v r, q, hp, hq => by
    simp only [Props.isFlat, Bool.and_eq_true] at hp
    simp [Props.append, Props.isFlat, hp.1, isFlat_append r q hp.2 hq]

theorem isFlat_prefixKeys : ∀ (p : Props) (k : String), p.isFlat = true →
    (p.prefixKeys k).isFlat = true
  | .nil, k, _ => by simp [Props.prefixKeys, Props.isFlat]
  | .cons k2 v r, k, hp => by
    simp only [Props.isFlat, Bool.and_eq_true] at hp
    simp [Props.prefixKeys, Props.isFlat, hp.1, isFlat_prefixKeys r k hp.2]

mutual
theorem flattenProps_isFlat : ∀ p : Props, (flattenProps p).isFlat = true
  | .nil => by simp [flattenProps, Props.isFlat]
  | .cons k v rest => by
    rw [flattenProps]
    exact isFlat_append _ _ (flattenEntry_isFlat k v) (flattenProps_isFlat rest)

theorem flattenEntry_isFlat : ∀ (k : String) (v : Value),
    (flattenEntry k v).isFlat = true
  | k, .dict d => by
    rw [flattenEntry]
    exact isFlat_prefixKeys _ k (flattenProps_isFlat d)
  | k, .str s => by simp [flattenEntry, Props.isFlat, Value.isDict]
  | k, .num n => by simp [flattenEntry, Props.isFlat, Value.isDict]
  | k, .bool b => by simp [flattenEntry, Props.isFlat, Value.isDict]
  | k, .vlist vs => by simp [flattenEntry, Props.isFlat, Value.isDict]
end

theorem flattenProps_of_isFlat : ∀ {p : Props}, p.isFlat = true →
    flattenProps p = p
  | .nil, _ => by simp [flattenProps]
  | .cons k v r, hp => by
    simp only [Props.isFlat, Bool.and_eq_true] at hp
    rw [flattenProps, flattenEntry_of_not_dict k (by simpa using hp.1),
      flattenProps_of_isFlat hp.2]
    simp [Props.append]

theorem flattenProps_idem (p : Props) :
    flattenProps (flattenProps p) = flattenProps p :=
  flattenProps_of_isFlat (flattenProps_isFlat p)

/-- The requirement loop of `goals.py` lines 97-100 is equivalent to
flattening once and testing every requirement against the flattened
attributes. -/
theorem qualifiesLoop_eq_any (reqs : List Props) (props : Props) :
    qualifiesLoop reqs props
      = reqs.any (fun req => req.subsetOf (flattenProps props)) := by
  induction reqs generalizing props with
  | nil => simp [qualifiesLoop]
  | cons req rest ih =>
    simp only [qualifiesLoop, List.any_cons]
    rw [ih (flattenProps props), flattenProps_idem]

/-! ### Ledger-diff and detection lemmas -/


theorem addNew_fst_flag (d : List (ObjId × Nat)) :
    ∀ (l : List (ObjId × Nat)) (b b' : Bool),
    (d.foldl (fun st p => if hasId st.1 p.1 then st else (st.1 ++ [p], true)) (l, b)).1
      = (d.foldl (fun st p => if hasId st.1 p.1 then st else (st.1 ++ [p], true)) (l, b')).1 := by
  induction d with
  | nil => intro l b b'; rfl
  | cons p rest ih =>
    intro l b b'
    simp only [List.foldl_cons]
    by_cases h : hasId l p.1 = true
    · simp only [h, if_true]
      exact ih l b b'
    · simp only [h, Bool.false_eq_true, if_false]

theorem addNew_flag_mono (d : List (ObjId × Nat)) :
    ∀ (l : List (ObjId × Nat)),
    (d.foldl (fun st p => if hasId st.1 p.1 then st else (st.1 ++ [p], true)) (l, true)).2
      = true := by
  induction d with
  | nil => intro l; rfl
  | cons p rest ih =>
    intro l
    simp only [List.foldl_cons]
    by_cases h : hasId l p.1 = true
    · simp only [h, if_true]
      exact ih l
    · simp only [h, Bool.false_eq_true, if_false]
      exact ih (l ++ [p])

theorem addNew_cons (l : List (ObjId × Nat)) (p : ObjId × Nat)
    (rest : List (ObjId × Nat)) :
    addNew l (p :: rest)
      = if hasId l p.1 then addNew l rest
        else ((addNew (l ++ [p]) rest).1, true) := by
  simp only [addNew, List.foldl_cons]
  by_cases h : hasId l p.1 = true
  · simp only [h, if_true]
  · simp only [h, Bool.false_eq_true, if_false]
    refine Prod.ext ?_ ?_
    · exact addNew_fst_flag rest (l ++ [p]) true false
    · exact addNew_flag_mono rest (l ++ [p])

theorem hasId_append (l l' : List (ObjId × Nat)) (id : ObjId) :
    hasId (l ++ l') id = (hasId l id || hasId l' id) := by
  simp [hasId, List.any_append]

theorem addNew_eq : ∀ (d l : List (ObjId × Nat)), (d.map Prod.fst).Nodup →
    (addNew l d).1 = l ++ d.filter (fun p => !hasId l p.1)
  | [], l, _ => by simp [addNew]
  | p :: rest, l, hnd => by
    simp only [List.map_cons, List.nodup_cons, List.mem_map] at hnd
    obtain ⟨hp, hrest⟩ := hnd
    rw [addNew_cons]
    by_cases h : hasId l p.1 = true
    · rw [if_pos h, addNew_eq rest l hrest, List.filter_cons]
      simp [h]
    · rw [if_neg h]
      show (addNew (l ++ [p]) rest).1 = _
      rw [addNew_eq rest (l ++ [p]) hrest]
      have hfc : rest.filter (fun q => !hasId (l ++ [p]) q.1)
          = rest.filter (fun q => !hasId l q.1) := by
        apply List.filter_congr
        intro q hq
        have hqp : q.1 ≠ p.1 := fun he => hp ⟨q, hq, he⟩
        simp [hasId_append, hasId, hqp, Ne.symm hqp]
      rw [hfc, List.filter_cons]
      have h' : (!hasId l p.1) = true := by simp [h]
      simp [h']

theorem addNew_flag_eq : ∀ (d l : List (ObjId × Nat)),
    (addNew l d).2 = d.any (fun p => !hasId l p.1)
  | [], l => by simp [addNew]
  | p :: rest, l => by
    rw [addNew_cons, List.any_cons]
    by_cases h : hasId l p.1 = true
    · rw [if_pos h, addNew_flag_eq rest l]
      simp [h]
    · rw [if_neg h]
      simp [h]



theorem mem_hasId {d : List (ObjId × Nat)} {p : ObjId × Nat} (hp : p ∈ d) :
    hasId d p.1 = true :=
  (hasId_iff d p.1).mpr ⟨p, hp, rfl⟩

theorem removeGone_fst (l d : List (ObjId × Nat)) :
    (removeGone l d).1 = l.filter (fun q => hasId d q.1) := rfl

theorem removeGone_flag_iff (l d : List (ObjId × Nat)) :
    (removeGone l d).2 = true ↔ ∃ q ∈ l, hasId d q.1 = false := by
  simp only [removeGone, Bool.not_eq_true', List.isEmpty_eq_false, ne_eq,
    List.filter_eq_nil_iff]
  push_neg
  simp

theorem ledgerDiff_eq (l d : List (ObjId × Nat)) (hnd : (d.map Prod.fst).Nodup) :
    (ledgerDiff l d).1
      = l.filter (fun q => hasId d q.1) ++ d.filter (fun p => !hasId l p.1) := by
  show (removeGone (addNew l d).1 d).1 = _
  rw [removeGone_fst, addNew_eq d l hnd, List.filter_append]
  have : (d.filter (fun p => !hasId l p.1)).filter (fun q => hasId d q.1)
      = d.filter (fun p => !hasId l p.1) := by
    rw [List.filter_eq_self]
    intro p hp
    exact mem_hasId (List.mem_of_mem_filter hp)
  rw [this]

theorem ledgerDiff_flag_iff (l d : List (ObjId × Nat))
    (hnd : (d.map Prod.fst).Nodup) :
    (ledgerDiff l d).2 = true
      ↔ (∃ p ∈ d, hasId l p.1 = false) ∨ (∃ q ∈ l, hasId d q.1 = false) := by
  show ((addNew l d).2 || (removeGone (addNew l d).1 d).2) = true ↔ _
  rw [Bool.or_eq_true, addNew_flag_eq, removeGone_flag_iff, addNew_eq d l hnd]
  constructor
  · rintro (h | ⟨q, hq, hfq⟩)
    · left
      simp only [List.any_eq_true, Bool.not_eq_true'] at h
      exact h
    · rcases List.mem_append.mp hq with hql | hqd
      · exact Or.inr ⟨q, hql, hfq⟩
      · exact absurd (mem_hasId (List.mem_of_mem_filter hqd)) (by simp [hfq])
  · rintro (⟨p, hp, hfp⟩ | ⟨q, hq, hfq⟩)
    · left
      simp only [List.any_eq_true, Bool.not_eq_true']
      exact ⟨p, hp, hfp⟩
    · exact Or.inr ⟨q, List.mem_append_left _ hq, hfq⟩

theorem ledgerDiff_nochange (l d : List (ObjId × Nat))
    (hnd : (d.map Prod.fst).Nodup)
    (h : (ledgerDiff l d).2 = false) : (ledgerDiff l d).1 = l := by
  have hnot : ¬(ledgerDiff l d).2 = true := by simp [h]
  rw [ledgerDiff_eq l d hnd]
  have h1 : l.filter (fun q => hasId d q.1) = l := by
    rw [List.filter_eq_self]
    intro q hq
    by_contra hc
    exact hnot ((ledgerDiff_flag_iff l d hnd).mpr (Or.inr ⟨q, hq, by simpa using hc⟩))
  have h2 : d.filter (fun p => !hasId l p.1) = [] := by
    rw [List.filter_eq_nil_iff]
    intro p hp hc
    exact hnot ((ledgerDiff_flag_iff l d hnd).mpr (Or.inl ⟨p, hp, by simpa using hc⟩))
  rw [h1, h2, List.append_nil]



theorem insertIfAbsent_ticks {acc : List (ObjId × Nat)} {tick : Nat}
    (h : ∀ p ∈ acc, p.2 = tick) (id : ObjId) :
    ∀ p ∈ insertIfAbsent acc id tick, p.2 = tick := by
  intro p hp
  unfold insertIfAbsent at hp
  split at hp
  · exact h p hp
  · rcases List.mem_append.mp hp with h1 | h1
    · exact h p h1
    · simp only [List.mem_singleton] at h1
      rw [h1]

theorem insertIfAbsent_nodup {acc : List (ObjId × Nat)} {tick : Nat}
    (h : (acc.map Prod.fst).Nodup) (id : ObjId) :
    ((insertIfAbsent acc id tick).map Prod.fst).Nodup := by
  unfold insertIfAbsent
  split
  · exact h
  · next hab =>
    rw [List.map_append, List.map_singleton]
    apply List.Nodup.append h (List.nodup_singleton id)
    intro a ha hb
    simp only [List.mem_singleton] at hb
    subst hb
    rcases List.mem_map.mp ha with ⟨p, hp, hpa⟩
    exact absurd ((hasId_iff acc a).mpr ⟨p, hp, hpa⟩) (by simp_all)

theorem insertIfAbsent_mem {acc : List (ObjId × Nat)} {tick : Nat}
    (id : ObjId) (x : ObjId × Nat) :
    x ∈ insertIfAbsent acc id tick
      ↔ x ∈ acc ∨ (x = (id, tick) ∧ hasId acc id = false) := by
  unfold insertIfAbsent
  split
  · next h =>
    simp [h]
  · next h =>
    simp_all [Bool.not_eq_true]



theorem detectedAux_ticks (w : GridWorld) (target : List Props) (tick : Nat) :
    ∀ (ids : List ObjId) (acc : List (ObjId × Nat)), (∀ p ∈ acc, p.2 = tick) →
    ∀ p ∈ ids.foldl
      (fun acc id => if objQualifies w target id then insertIfAbsent acc id tick else acc)
      acc, p.2 = tick
  | [], acc, h => h
  | i :: rest, acc, h => by
    simp only [List.foldl_cons]
    split
    · exact detectedAux_ticks w target tick rest _ (insertIfAbsent_ticks h i)
    · exact detectedAux_ticks w target tick rest acc h

theorem detected_ticks (w : GridWorld) (target : List Props) (ids : List ObjId)
    (tick : Nat) : ∀ p ∈ detectedObjs w target ids tick, p.2 = tick :=
  detectedAux_ticks w target tick ids [] (by simp)

theorem detectedAux_nodup (w : GridWorld) (target : List Props) (tick : Nat) :
    ∀ (ids : List ObjId) (acc : List (ObjId × Nat)), (acc.map Prod.fst).Nodup →
    ((ids.foldl
      (fun acc id => if objQualifies w target id then insertIfAbsent acc id tick else acc)
      acc).map Prod.fst).Nodup
  | [], acc, h => h
  | i :: rest, acc, h => by
    simp only [List.foldl_cons]
    split
    · exact detectedAux_nodup w target tick rest _ (insertIfAbsent_nodup h i)
    · exact detectedAux_nodup w target tick rest acc h

theorem detected_nodup (w : GridWorld) (target : List Props) (ids : List ObjId)
    (tick : Nat) : ((detectedObjs w target ids tick).map Prod.fst).Nodup :=
  detectedAux_nodup w target tick ids [] (by simp)

theorem detectedAux_mem (w : GridWorld) (target : List Props) (tick : Nat)
    (id : ObjId) (tk : Nat) :
    ∀ (ids : List ObjId) (acc : List (ObjId × Nat)), (∀ p ∈ acc, p.2 = tick) →
    ((id, tk) ∈ ids.foldl
      (fun acc id => if objQualifies w target id then insertIfAbsent acc id tick else acc)
      acc
      ↔ (id, tk) ∈ acc ∨ (tk = tick ∧ id ∈ ids ∧ objQualifies w target id = true))
  | [], acc, h => by simp
  | i :: rest, acc, h => by
    simp only [List.foldl_cons]
    by_cases hq : objQualifies w target i = true
    · rw [if_pos hq]
      rw [detectedAux_mem w target tick id tk rest _ (insertIfAbsent_ticks h i)]
      rw [insertIfAbsent_mem]
      constructor
      · rintro ((h1 | ⟨h1, h2⟩) | ⟨h1, h2, h3⟩)
        · exact Or.inl h1
        · rcases Prod.mk.injEq _ _ _ _ ▸ h1 with ⟨he1, he2⟩
          exact Or.inr ⟨he2, by simp [he1], he1 ▸ hq⟩
        · exact Or.inr ⟨h1, List.mem_cons_of_mem i h2, h3⟩
      · rintro (h1 | ⟨h1, h2, h3⟩)
        · exact Or.inl (Or.inl h1)
        · rcases List.mem_cons.mp h2 with he | hr
          · subst he
            by_cases hacc : hasId acc id = true
            · rcases (hasId_iff acc id).mp hacc with ⟨p, hp, hp1⟩
              have hpt : p = (id, tk) := Prod.ext hp1 (by rw [h p hp, h1])
              exact Or.inl (Or.inl (hpt ▸ hp))
            · exact Or.inl (Or.inr ⟨by rw [h1], by simpa using hacc⟩)
          · exact Or.inr ⟨h1, hr, h3⟩
    · rw [if_neg hq]
      rw [detectedAux_mem w target tick id tk rest acc h]
      constructor
      · rintro (h1 | ⟨h1, h2, h3⟩)
        · exact Or.inl h1
        · exact Or.inr ⟨h1, List.mem_cons_of_mem i h2, h3⟩
      · rintro (h1 | ⟨h1, h2, h3⟩)
        · exact Or.inl h1
        · rcases List.mem_cons.mp h2 with he | hr
          · exact absurd (he ▸ h3) hq
          · exact Or.inr ⟨h1, hr, h3⟩

theorem detected_mem (w : GridWorld) (target : List Props) (ids : List ObjId)
    (tick : Nat) (id : ObjId) (tk : Nat) :
    (id, tk) ∈ detectedObjs w target ids tick
      ↔ tk = tick ∧ id ∈ ids ∧ objQualifies w target id = true := by
  rw [detectedObjs, detectedAux_mem w target tick id tk ids [] (by simp)]
  simp



theorem rankWalk_ok_eq (w : GridWorld) (target : List Props) :
    ∀ (entries : List (ObjId × Nat)) (k r : Nat),
    rankWalk w target entries k = .ok r →
    r = k + specRank w (target.drop k) entries
  | [], k, r, h => by
    simp only [rankWalk, Except.ok.injEq] at h
    subst h
    cases target.drop k <;> simp [specRank]
  | (id, t) :: es, k, r, h => by
    cases hl : w.lookupAll id with
    | none =>
      simp only [rankWalk, hl] at h
      exact absurd h (by simp)
    | some obj =>
      cases hg : target.get? k with
      | none =>
        simp only [rankWalk, hl, hg] at h
        exact absurd h (by simp)
      | some req =>
        simp only [rankWalk, hl, hg] at h
        have hg' : target[k]? = some req := by
          rw [← List.get?_eq_getElem?]
          exact hg
        obtain ⟨hlt, he⟩ := List.getElem?_eq_some_iff.mp hg'
        have hdrop : target.drop k = req :: target.drop (k + 1) := by
          rw [List.drop_eq_getElem_cons hlt, he]
        rw [hdrop]
        simp only [specRank, hl]
        by_cases hs : req.subsetOf (flattenProps obj.properties) = true
        · rw [if_pos hs] at h
          rw [if_pos hs]
          rw [rankWalk_ok_eq w target es (k + 1) r h]
          omega
        · rw [if_neg hs] at h
          rw [if_neg hs]
          simp only [Except.ok.injEq] at h
          omega

theorem rankWalk_no_valueError (w : GridWorld) (target : List Props) :
    ∀ (entries : List (ObjId × Nat)) (k : Nat),
    rankWalk w target entries k ≠ .error .valueError
  | [], k => by simp [rankWalk]
  | (id, t) :: es, k => by
    cases hl : w.lookupAll id with
    | none => simp [rankWalk, hl]
    | some obj =>
      simp only [rankWalk, hl]
      cases hg : target.get? k with
      | none => simp [hg]
      | some req =>
        simp only [hg]
        by_cases hs : req.subsetOf (flattenProps obj.properties) = true
        · rw [if_pos hs]
          exact rankWalk_no_valueError w target es (k + 1)
        · rw [if_neg hs]
          simp

theorem checkCompletion_no_valueError (s : CollectionGoal) (w : GridWorld) :
    (checkCompletion s w).1 ≠ .error .valueError := by
  simp only [checkCompletion]
  repeat' split
  all_goals simp_all
  rename_i x e heq
  intro hh
  exact rankWalk_no_valueError w _ _ _ (hh ▸ heq)


/-! ### Resolution lemmas and claims C1, C4, C5, C8 -/


theorem goalReached_no_zone (s : CollectionGoal) (w : GridWorld)
    (h1 : s.drop_off_locs = none)
    (h2 : findDropOffLocations s.area_name w = []) :
    goalReached s w = (.error .valueError, { s with drop_off_locs := some [] }) := by
  simp [goalReached, h1, h2]

theorem goalReached_locs_found (s : CollectionGoal) (w : GridWorld)
    (l : List Loc) (h1 : s.drop_off_locs = none)
    (h2 : findDropOffLocations s.area_name w = l) (h3 : l.isEmpty = false) :
    goalReached s w = goalReached { s with drop_off_locs := some l } w := by
  simp [goalReached, h1, h2, h3]

theorem goalReached_resolve_target (s : CollectionGoal) (w : GridWorld)
    (l : List Loc) (h1 : s.drop_off_locs = some l) (h2 : s.target = none) :
    goalReached s w
      = goalReached { s with target := some (findCollectionObjects s.area_name w) } w := by
  simp [goalReached, h1, h2]

theorem goalReached_fully_resolved_ok (s : CollectionGoal) (w : GridWorld)
    (l : List Loc) (t : List Props) (b : Bool) (s' : CollectionGoal)
    (h1 : s.drop_off_locs = some l) (h2 : s.target = some t)
    (h : goalReached s w = (.ok b, s')) :
    s'.is_done = b ∧ s'.drop_off_locs = some l ∧ s'.target = some t ∧
      s'.in_order = s.in_order := by
  rw [goalReached_resolved s w l t h1 h2] at h
  cases hc : (checkCompletion s w).1 with
  | error e =>
    rw [hc] at h
    simp at h
  | ok b' =>
    rw [hc] at h
    simp only [Prod.mk.injEq, Except.ok.injEq] at h
    obtain ⟨hb, hs⟩ := h
    subst hb
    subst hs
    refine ⟨rfl, ?_, ?_, ?_⟩
    · show (checkCompletion s w).2.drop_off_locs = some l
      rw [checkCompletion_drop_off_locs, h1]
    · show (checkCompletion s w).2.target = some t
      rw [checkCompletion_target, h2]
    · show (checkCompletion s w).2.in_order = s.in_order
      exact checkCompletion_in_order s w

theorem goalReached_ok_state (s : CollectionGoal) (w : GridWorld) (b : Bool)
    (s' : CollectionGoal) (h : goalReached s w = (.ok b, s')) :
    s'.is_done = b ∧ (∃ l, s'.drop_off_locs = some l) ∧ (∃ t, s'.target = some t) ∧
      s'.in_order = s.in_order := by
  cases hl : s.drop_off_locs with
  | none =>
    cases hfe : (findDropOffLocations s.area_name w).isEmpty with
    | true =>
      rw [goalReached_no_zone s w hl (List.isEmpty_iff.mp hfe)] at h
      simp at h
    | false =>
      rw [goalReached_locs_found s w _ hl rfl hfe] at h
      set s1 : CollectionGoal := { s with drop_off_locs := some (findDropOffLocations s.area_name w) } with hs1
      cases ht : s1.target with
      | none =>
        rw [goalReached_resolve_target s1 w _ rfl ht] at h
        have := goalReached_fully_resolved_ok
          { s1 with target := some (findCollectionObjects s1.area_name w) } w
          (findDropOffLocations s.area_name w)
          (findCollectionObjects s1.area_name w) b s' rfl rfl h
        exact ⟨this.1, ⟨_, this.2.1⟩, ⟨_, this.2.2.1⟩, this.2.2.2⟩
      | some t =>
        have := goalReached_fully_resolved_ok s1 w _ t b s' rfl ht h
        exact ⟨this.1, ⟨_, this.2.1⟩, ⟨_, this.2.2.1⟩, this.2.2.2⟩
  | some l =>
    cases ht : s.target with
    | none =>
      rw [goalReached_resolve_target s w l hl ht] at h
      have := goalReached_fully_resolved_ok
        { s with target := some (findCollectionObjects s.area_name w) } w l
        (findCollectionObjects s.area_name w) b s' hl rfl h
      exact ⟨this.1, ⟨_, this.2.1⟩, ⟨_, this.2.2.1⟩, this.2.2.2⟩
    | some t =>
      have := goalReached_fully_resolved_ok s w l t b s' hl ht h
      exact ⟨this.1, ⟨_, this.2.1⟩, ⟨_, this.2.2.1⟩, this.2.2.2⟩



theorem getProgress_done (s : CollectionGoal) (h : s.is_done = true) :
    getProgress s = .ok 1 := by
  simp [getProgress, h]

theorem goalReached_of_done (s : CollectionGoal) (w : GridWorld)
    (h : s.is_done = true) (hl : ∃ l, s.drop_off_locs = some l)
    (ht : ∃ t, s.target = some t) :
    goalReached s w = (.ok true, s) := by
  obtain ⟨l, hl⟩ := hl
  obtain ⟨t, ht⟩ := ht
  exact goalReached_done s w l t hl ht h

/-- C1: Idempotent completion: once `goal_reached` has returned `true`
for an evaluator instance, the state is terminal: every later
`goal_reached` call (on any sequence of later tick snapshots, however
the world, the ledger contents or the objects at the zone change)
returns `true` and leaves the state untouched, and `get_progress`
returns `1.0` throughout. -/
theorem C1_idempotent_completion (s : CollectionGoal) (w : GridWorld)
    (s' : CollectionGoal) (h : goalReached s w = (.ok true, s')) :
    s'.is_done = true ∧ getProgress s' = .ok 1 ∧
      ∀ ws : List GridWorld,
        (runGoal s' ws).2 = s' ∧
        getProgress (runGoal s' ws).2 = .ok 1 ∧
        ∀ r ∈ (runGoal s' ws).1, r = .ok true := by
  obtain ⟨hdone, hl, ht, _⟩ := goalReached_ok_state s w true s' h
  refine ⟨hdone, getProgress_done s' hdone, ?_⟩
  intro ws
  induction ws with
  | nil =>
    exact ⟨rfl, getProgress_done s' hdone, by simp [runGoal]⟩
  | cons w2 rest ih =>
    have hstep : goalReached s' w2 = (.ok true, s') :=
      goalReached_of_done s' w2 hdone hl ht
    refine ⟨?_, ?_, ?_⟩
    · show (runGoal (goalReached s' w2).2 rest).2 = s'
      rw [hstep]
      exact ih.1
    · show getProgress (runGoal (goalReached s' w2).2 rest).2 = .ok 1
      rw [hstep]
      exact ih.2.1
    · intro r hr
      simp only [runGoal] at hr
      rcases List.mem_cons.mp hr with h1 | h1
      · rw [h1, hstep]
      · rw [hstep] at h1
        exact ih.2.2 r h1

/-- C1 witness: in the world `w1` (requirement `[{color: red}]`, a red
block dropped at the zone) the first evaluation already returns `true`,
and the two subsequent snapshots `w4` (whole zone emptied, target
removed) and `w8b` (even the tile gone) still report `true` with
progress `1.0`. -/
theorem C1_witness :
    (goalReached g0 w1).2.is_done = true ∧
      getProgress (goalReached g0 w1).2 = .ok 1 ∧
      (runGoal (goalReached g0 w1).2 [w4, w8b]).1 = [.ok true, .ok true] := by
  have h := C1_idempotent_completion g0 w1 (goalReached g0 w1).2 rfl
  exact ⟨h.1, h.2.1, rfl⟩



theorem CollectionGoal.set_is_done_eq (s : CollectionGoal) (b : Bool)
    (h : s.is_done = b) : { s with is_done := b } = s := by
  cases s
  simp_all

theorem CollectionGoal.set_ledger_eq (s : CollectionGoal)
    (l : List (ObjId × Nat)) (h : s.dropped_objects = l) :
    { s with dropped_objects := l } = s := by
  cases s
  simp_all

theorem objQualifies_nil (w : GridWorld) (id : ObjId) :
    objQualifies w [] id = false := by
  unfold objQualifies
  cases w.lookupAll id <;> simp [qualifiesLoop]

theorem detectedObjs_nil_target (w : GridWorld) (ids : List ObjId) (tick : Nat) :
    detectedObjs w [] ids tick = [] := by
  have : ∀ (l : List ObjId) (acc : List (ObjId × Nat)),
      l.foldl (fun acc id =>
        if objQualifies w [] id then insertIfAbsent acc id tick else acc) acc = acc := by
    intro l
    induction l with
    | nil => intro acc; rfl
    | cons i rest ih =>
      intro acc
      rw [List.foldl_cons, if_neg (by simp [objQualifies_nil])]
      exact ih acc
  exact this ids []

theorem checkCompletion_empty (s : CollectionGoal) (w : GridWorld)
    (ht : s.target = some []) (hled : s.dropped_objects = [])
    (hdone : s.is_done = false) :
    checkCompletion s w = (.ok false, s) := by
  have hdet : currentDetected s w = [] := by
    rw [currentDetected, ht]
    exact detectedObjs_nil_target w _ _
  have hdiff : ledgerDiff s.dropped_objects (currentDetected s w) = ([], false) := by
    rw [hled, hdet]
    rfl
  simp only [checkCompletion, hdone, Bool.false_eq_true, if_false, hdiff,
    Bool.and_false]
  congr 1
  cases s
  simp_all

theorem goalReached_empty_resolved (s : CollectionGoal) (w : GridWorld)
    (l : List Loc) (hl : s.drop_off_locs = some l) (ht : s.target = some [])
    (hled : s.dropped_objects = []) (hdone : s.is_done = false) :
    goalReached s w = (.ok false, s) := by
  rw [goalReached_resolved s w l [] hl ht, checkCompletion_empty s w ht hled hdone]
  simp only []
  rw [CollectionGoal.set_is_done_eq s false hdone]

/-- C4 (amended): for an evaluator whose resolved requirement sequence
is empty and whose ledger is empty (as it always is in that
configuration, since nothing can ever qualify), `goal_reached` never
returns `true` and preserves that configuration; `get_progress`,
however, raises `ZeroDivisionError` instead of returning `0.0` — the
division `len(...)/len(self.__target)` at `goals.py` lines 160/166 has
no guard. -/
theorem C4_empty_requirements (s : CollectionGoal) (w : GridWorld)
    (ht : s.target = some []) (hled : s.dropped_objects = [])
    (hdone : s.is_done = false) :
    (goalReached s w).1 ≠ .ok true ∧
      (goalReached s w).2.target = some [] ∧
      (goalReached s w).2.dropped_objects = [] ∧
      (goalReached s w).2.is_done = false ∧
      getProgress s = .error .zeroDivisionError := by
  have hprog : getProgress s = .error .zeroDivisionError := by
    simp [getProgress, hdone, ht]
  cases hl : s.drop_off_locs with
  | none =>
    cases hfe : (findDropOffLocations s.area_name w).isEmpty with
    | true =>
      rw [goalReached_no_zone s w hl (List.isEmpty_iff.mp hfe)]
      exact ⟨by simp, ht, hled, hdone, hprog⟩
    | false =>
      rw [goalReached_locs_found s w _ hl rfl hfe]
      rw [goalReached_empty_resolved
        { s with drop_off_locs := some (findDropOffLocations s.area_name w) } w
        (findDropOffLocations s.area_name w) rfl ht hled hdone]
      exact ⟨by simp, ht, hled, hdone, hprog⟩
  | some l =>
    rw [goalReached_empty_resolved s w l hl ht hled hdone]
    exact ⟨by simp, ht, hled, hdone, hprog⟩

/-- C4 counterexample to the claim as stated: in `w4` (a zone tile but
no collection target, so the requirement sequence resolves empty) the
first evaluation returns `false` as claimed, but `get_progress` raises
`ZeroDivisionError` instead of returning `0.0`. -/
theorem C4_counterexample :
    (goalReached g0 w4).1 = .ok false ∧
      (goalReached g0 w4).2.target = some [] ∧
      getProgress (goalReached g0 w4).2 = .error .zeroDivisionError :=
  ⟨rfl, rfl, rfl⟩

/-- C4 witness: the amended statement applied to the concrete
empty-target state `s4` reached in `w4`. -/
theorem C4_witness :
    (goalReached s4 w4).1 ≠ .ok true ∧
      (goalReached s4 w4).2.target = some [] ∧
      (goalReached s4 w4).2.dropped_objects = [] ∧
      (goalReached s4 w4).2.is_done = false ∧
      getProgress s4 = .error .zeroDivisionError :=
  C4_empty_requirements s4 w4 rfl rfl rfl



/-- C5 (amended): any value `get_progress` returns is nonnegative, and
it is `1.0` once the goal is done; the upper bound `1.0` claimed for the
unordered ledger ratio does not hold (see the counterexample). -/
theorem C5_progress_nonneg (s : CollectionGoal) (q : ℚ)
    (h : getProgress s = .ok q) : 0 ≤ q ∧ (s.is_done = true → q = 1) := by
  by_cases hd : s.is_done = true
  · rw [getProgress_done s hd] at h
    simp only [Except.ok.injEq] at h
    subst h
    exact ⟨by norm_num, fun _ => rfl⟩
  · have hd' : s.is_done = false := by simpa using hd
    refine ⟨?_, fun hc => absurd hc hd⟩
    cases ht : s.target with
    | none => simp [getProgress, hd', ht] at h
    | some tgt =>
      by_cases hlen : tgt.length = 0
      · simp [getProgress, hd', ht, hlen] at h
      · cases hio : s.in_order with
        | true =>
          simp only [getProgress, hd', ht, hio, Bool.false_eq_true, if_false,
            if_neg hlen, if_true, Except.ok.injEq] at h
          rw [← h]
          positivity
        | false =>
          simp only [getProgress, hd', ht, hio, Bool.false_eq_true, if_false,
            if_neg hlen, if_true, Except.ok.injEq] at h
          rw [← h]
          positivity

theorem w5_progress : getProgress (goalReached g0 w5).2 = .ok 3 := by
  have hd : (goalReached g0 w5).2.is_done = false := rfl
  have ht : (goalReached g0 w5).2.target = some [pRed] := rfl
  have ho : (goalReached g0 w5).2.in_order = false := rfl
  have hl : (goalReached g0 w5).2.dropped_objects.length = 3 := rfl
  simp [getProgress, hd, ht, ho, hl]

/-- C5 counterexample to the claim as stated: with one requirement and
three qualifying red blocks at the zone, the very first evaluation
leaves the evaluator unsatisfied yet reporting progress `3.0`, outside
`[0.0, 1.0]` — the unordered ratio `|ledger| / |requirements|` exceeds
`1`. -/
theorem C5_counterexample :
    (goalReached g0 w5).1 = .ok false ∧
      getProgress (goalReached g0 w5).2 = .ok 3 ∧ ¬((3 : ℚ) ≤ 1) :=
  ⟨rfl, w5_progress, by norm_num⟩

/-- C5 witness: the amended nonnegativity statement applied to the
concrete over-full state of the counterexample world. -/
theorem C5_witness :
    (0 : ℚ) ≤ 3 ∧ ((goalReached g0 w5).2.is_done = true → (3 : ℚ) = 1) :=
  C5_progress_nonneg (goalReached g0 w5).2 3 w5_progress

theorem goalReached_locs_stable (s : CollectionGoal) (w : GridWorld)
    (l : List Loc) (hl : s.drop_off_locs = some l) :
    (goalReached s w).2.drop_off_locs = some l := by
  have core : ∀ (s2 : CollectionGoal), s2.drop_off_locs = some l →
      (∃ t, s2.target = some t) → (goalReached s2 w).2.drop_off_locs = some l := by
    intro s2 hl2 ⟨t, ht2⟩
    rw [goalReached_resolved s2 w l t hl2 ht2]
    cases hc : (checkCompletion s2 w).1 <;> simp only [hc] <;>
      simp [checkCompletion_drop_off_locs, hl2]
  cases ht : s.target with
  | none =>
    rw [goalReached_resolve_target s w l hl ht]
    exact core _ hl ⟨_, rfl⟩
  | some t => exact core s hl ⟨t, ht⟩

theorem goalReached_no_valueError_of_locs (s : CollectionGoal) (w : GridWorld)
    (l : List Loc) (hl : s.drop_off_locs = some l) :
    (goalReached s w).1 ≠ .error .valueError := by
  have core : ∀ (s2 : CollectionGoal), s2.drop_off_locs = some l →
      (∃ t, s2.target = some t) → (goalReached s2 w).1 ≠ .error .valueError := by
    intro s2 hl2 ⟨t, ht2⟩
    rw [goalReached_resolved s2 w l t hl2 ht2]
    cases hc : (checkCompletion s2 w).1 with
    | error e =>
      simp only [hc]
      intro hx
      simp only [Except.error.injEq] at hx
      exact checkCompletion_no_valueError s2 w (hx ▸ hc)
    | ok b => simp [hc]
  cases ht : s.target with
  | none =>
    rw [goalReached_resolve_target s w l hl ht]
    exact core _ hl ⟨_, rfl⟩
  | some t => exact core s hl ⟨t, ht⟩

/-- C8 (amended): on the first `goal_reached` call (no cached zone yet)
the evaluator collects the locations of exactly those environment
objects whose `name` property equals the configured zone name — whether
or not they carry the drop-off-tile attributes — caches that list, and
raises the fatal `ValueError` precisely when the list is empty. -/
theorem C8_zone_resolution (s : CollectionGoal) (w : GridWorld)
    (hl : s.drop_off_locs = none) :
    ((goalReached s w).1 = .error .valueError
        ↔ findDropOffLocations s.area_name w = []) ∧
      (goalReached s w).2.drop_off_locs
        = some (findDropOffLocations s.area_name w) ∧
      ∀ loc : Loc, loc ∈ findDropOffLocations s.area_name w ↔
        ∃ p ∈ w.environment_objects,
          (p.2.properties.lookup "name" == some (.str s.area_name)) = true ∧
          p.2.location = loc := by
  have hmem : ∀ loc : Loc, loc ∈ findDropOffLocations s.area_name w ↔
      ∃ p ∈ w.environment_objects,
        (p.2.properties.lookup "name" == some (.str s.area_name)) = true ∧
        p.2.location = loc := by
    intro loc
    simp [findDropOffLocations, List.mem_map, List.mem_filter]
    constructor
    · rintro ⟨a, b, ⟨hmem2, hpred⟩, hloc⟩
      exact ⟨a, b, hmem2, hpred, hloc⟩
    · rintro ⟨a, b, hmem2, hpred, hloc⟩
      exact ⟨a, b, ⟨hmem2, hpred⟩, hloc⟩
  cases hfe : (findDropOffLocations s.area_name w).isEmpty with
  | true =>
    have hnil := List.isEmpty_iff.mp hfe
    rw [goalReached_no_zone s w hl hnil]
    exact ⟨by simp [hnil], by simp [hnil], hmem⟩
  | false =>
    rw [goalReached_locs_found s w _ hl rfl hfe]
    have hne := List.isEmpty_eq_false.mp hfe
    refine ⟨?_, ?_, hmem⟩
    · constructor
      · intro hc
        exact absurd hc (goalReached_no_valueError_of_locs _ w _ rfl)
      · intro hc
        exact absurd hc hne
    · exact goalReached_locs_stable _ w _ rfl

/-- C8 counterexample to the claim as stated: in `w8a` an ordinary
object named `Z` (not a drop-off marker) contributes its location
`(5, 5)` while the genuine drop-off tile for `Z` (whose `name` is the
default `Collection_zone`) at `(1, 1)` is ignored; in `w8b`, which
contains the genuine marker only, the specification-side marker scan is
non-empty yet the evaluator raises the fatal zone-not-found error. -/
theorem C8_counterexample :
    findDropOffLocations "Z" w8a = [(5, 5)] ∧
      specDropOffLocations "Z" w8a = [(1, 1)] ∧
      (goalReached g0 w8b).1 = .error .valueError ∧
      specDropOffLocations "Z" w8b = [(1, 1)] :=
  ⟨rfl, rfl, rfl, rfl⟩

/-- C8 witness: the amended resolution statement applied to the first
call on the marker-only world `w8b`. -/
theorem C8_witness :
    ((goalReached g0 w8b).1 = .error .valueError
        ↔ findDropOffLocations g0.area_name w8b = []) ∧
      (goalReached g0 w8b).2.drop_off_locs
        = some (findDropOffLocations g0.area_name w8b) :=
  ⟨(C8_zone_resolution g0 w8b rfl).1, (C8_zone_resolution g0 w8b rfl).2.1⟩


/-! ### Claims C2 and C3 -/


theorem checkCompletion_unordered_updated (s : CollectionGoal) (w : GridWorld)
    (hdone : s.is_done = false) (hio : s.in_order = false)
    (hch : (ledgerDiff s.dropped_objects (currentDetected s w)).2 = true) :
    checkCompletion s w
      = (.ok ((ledgerDiff s.dropped_objects (currentDetected s w)).1.length
            == (s.target.getD []).length),
         { s with dropped_objects := (ledgerDiff s.dropped_objects (currentDetected s w)).1 }) := by
  simp only [checkCompletion, hdone, Bool.false_eq_true, if_false, hio,
    Bool.false_and, hch, if_true]

/-- C3: Unordered completion policy: with `in_order` disabled, on a tick
where the qualifying set changed, the evaluator reports satisfied iff
the number of ledger entries equals the number of requirement sets, and
stores that verdict. -/
theorem C3_unordered_completion (s : CollectionGoal) (w : GridWorld)
    (l : List Loc) (reqs : List Props)
    (hio : s.in_order = false) (hdone : s.is_done = false)
    (hl : s.drop_off_locs = some l) (ht : s.target = some reqs)
    (hch : (ledgerDiff s.dropped_objects (currentDetected s w)).2 = true) :
    goalReached s w
      = (.ok (specUnorderedSat (ledgerDiff s.dropped_objects (currentDetected s w)).1 reqs),
         { s with
             dropped_objects := (ledgerDiff s.dropped_objects (currentDetected s w)).1,
             is_done := specUnorderedSat (ledgerDiff s.dropped_objects (currentDetected s w)).1 reqs }) := by
  rw [goalReached_resolved s w l reqs hl ht,
    checkCompletion_unordered_updated s w hdone hio hch, ht]
  rfl

/-- C3 witness: with requirements `[red, blue]`, a red and a blue block
at the zone yield satisfied on the first tick in either listing order
(`w3a`: red first, `w3b`: blue first). -/
theorem C3_witness :
    goalReached gRB w3a
      = (.ok (specUnorderedSat (ledgerDiff gRB.dropped_objects (currentDetected gRB w3a)).1 [pRed, pBlue]),
         { gRB with
             dropped_objects := (ledgerDiff gRB.dropped_objects (currentDetected gRB w3a)).1,
             is_done := specUnorderedSat (ledgerDiff gRB.dropped_objects (currentDetected gRB w3a)).1 [pRed, pBlue] }) ∧
    specUnorderedSat (ledgerDiff gRB.dropped_objects (currentDetected gRB w3a)).1 [pRed, pBlue] = true ∧
    (goalReached gRB w3b).1 = .ok true := by
  refine ⟨C3_unordered_completion gRB w3a [(0, 0)] [pRed, pBlue] rfl rfl rfl rfl rfl, rfl, ?_⟩
  rw [C3_unordered_completion gRB w3b [(0, 0)] [pRed, pBlue] rfl rfl rfl rfl rfl]
  rfl



theorem specRank_le (w : GridWorld) :
    ∀ (reqs : List Props) (entries : List (ObjId × Nat)),
    specRank w reqs entries ≤ reqs.length
  | reqs, [] => by cases reqs <;> simp [specRank]
  | [], _ :: _ => by simp [specRank]
  | req :: rs, (id, t) :: es => by
    rw [specRank]
    cases w.lookupAll id with
    | none => simp
    | some obj =>
      simp only
      split
      · have := specRank_le w rs es
        simp only [List.length_cons]
        omega
      · simp

theorem checkCompletion_ordered_updated (s : CollectionGoal) (w : GridWorld)
    (r : Nat) (hdone : s.is_done = false) (hio : s.in_order = true)
    (hch : (ledgerDiff s.dropped_objects (currentDetected s w)).2 = true)
    (hrw : rankWalk w (s.target.getD [])
      (sortByTick (ledgerDiff s.dropped_objects (currentDetected s w)).1) 0 = .ok r) :
    checkCompletion s w
      = (.ok (r == (s.target.getD []).length),
         { s with
             dropped_objects := (ledgerDiff s.dropped_objects (currentDetected s w)).1,
             attained_rank := r }) := by
  simp only [checkCompletion, hdone, Bool.false_eq_true, if_false, hio,
    Bool.true_and, hch, if_true, hrw]

/-- C2: Ordered completion policy: with `in_order` enabled, on a tick
where the qualifying set changed and the rank walk completes (no
`IndexError`), the computed rank is exactly the specification's walk —
sort the ledger by arrival tick ascending, match entry `i` against
`requirements[attainedRank]`, increment while matching, stop at the
first mismatch — and the evaluator reports satisfied iff that rank
equals the number of requirements, storing the rank; while unsatisfied,
progress is the attained rank divided by the number of requirements. -/
theorem C2_ordered_completion (s : CollectionGoal) (w : GridWorld)
    (l : List Loc) (reqs : List Props) (r : Nat)
    (hio : s.in_order = true) (hdone : s.is_done = false)
    (hl : s.drop_off_locs = some l) (ht : s.target = some reqs)
    (hch : (ledgerDiff s.dropped_objects (currentDetected s w)).2 = true)
    (hrw : rankWalk w reqs
      (sortByTick (ledgerDiff s.dropped_objects (currentDetected s w)).1) 0 = .ok r) :
    r = specRank w reqs (sortByTick (ledgerDiff s.dropped_objects (currentDetected s w)).1) ∧
    goalReached s w
      = (.ok (specOrderedSat w reqs (ledgerDiff s.dropped_objects (currentDetected s w)).1),
         { s with
             dropped_objects := (ledgerDiff s.dropped_objects (currentDetected s w)).1,
             attained_rank := r,
             is_done := specOrderedSat w reqs (ledgerDiff s.dropped_objects (currentDetected s w)).1 }) ∧
    ((goalReached s w).2.is_done = false →
      getProgress (goalReached s w).2 = .ok ((r : ℚ) / (reqs.length : ℚ))) := by
  have hr : r = specRank w reqs (sortByTick (ledgerDiff s.dropped_objects (currentDetected s w)).1) := by
    have := rankWalk_ok_eq w reqs _ 0 r hrw
    simpa using this
  have hsat : (r == reqs.length)
      = specOrderedSat w reqs (ledgerDiff s.dropped_objects (currentDetected s w)).1 := by
    rw [specOrderedSat, hr]
  have hgr : goalReached s w
      = (.ok (specOrderedSat w reqs (ledgerDiff s.dropped_objects (currentDetected s w)).1),
         { s with
             dropped_objects := (ledgerDiff s.dropped_objects (currentDetected s w)).1,
             attained_rank := r,
             is_done := specOrderedSat w reqs (ledgerDiff s.dropped_objects (currentDetected s w)).1 }) := by
    rw [goalReached_resolved s w l reqs hl ht,
      checkCompletion_ordered_updated s w r hdone hio hch (by rw [ht]; exact hrw)]
    rw [ht]
    simp only [Option.getD_some, hsat]
  refine ⟨hr, hgr, ?_⟩
  intro hnd
  rw [hgr] at hnd
  simp only at hnd
  rw [hgr]
  have hlen : reqs.length ≠ 0 := by
    intro h0
    rw [specOrderedSat, h0] at hnd
    have hr0 : specRank w reqs (sortByTick (ledgerDiff s.dropped_objects (currentDetected s w)).1) = 0 := by
      have := specRank_le w reqs (sortByTick (ledgerDiff s.dropped_objects (currentDetected s w)).1)
      omega
    rw [hr0] at hnd
    simp at hnd
  simp only [getProgress, hnd, Bool.false_eq_true, if_false, hio, ht, if_true,
    if_neg hlen]



/-- C2 witness: requirements `[red, blue]` in order; on tick 1 only a
blue block is present (`w2a`): the rank walk stops immediately
(`attainedRank = 0`), the goal is unsatisfied and progress is `0.0`;
after the red block arrives later (tick 2, `w2b`, blue still first in
arrival order) the rank is still `0`. -/
theorem C2_witness :
    (0 : Nat) = specRank w2a [pRed, pBlue]
        (sortByTick (ledgerDiff gRBo.dropped_objects (currentDetected gRBo w2a)).1) ∧
    (goalReached gRBo w2a).1 = .ok false ∧
    (goalReached gRBo w2a).2.attained_rank = 0 ∧
    getProgress (goalReached gRBo w2a).2 = .ok ((0 : ℚ) / (2 : ℚ)) ∧
    (goalReached s2a w2b).1 = .ok false ∧
    (goalReached s2a w2b).2.attained_rank = 0 := by
  have h1 := C2_ordered_completion gRBo w2a [(0, 0)] [pRed, pBlue] 0
    rfl rfl rfl rfl rfl rfl
  have h2 := C2_ordered_completion s2a w2b [(0, 0)] [pRed, pBlue] 0
    rfl rfl rfl rfl rfl rfl
  refine ⟨h1.1, ?_, ?_, ?_, ?_, ?_⟩
  · rw [h1.2.1]
    rfl
  · rw [h1.2.1]
  · have := h1.2.2 (by rw [h1.2.1]; rfl)
    simpa using this
  · rw [h2.2.1]
    rfl
  · rw [h2.2.1]


/-! ### Claims C6 and C7 -/


/-- C6: Ledger diff semantics: on a tick before completion the
evaluator writes back exactly the diffed ledger; an id/tick pair is in
the diffed ledger iff the id currently qualifies and either the pair
was already in the ledger (old arrival tick retained) or the id is new
and carries the current tick (so a re-qualifying id re-enters with its
new tick); the change flag is true iff some id was added or removed;
and the ledger never holds an id twice (hence never with two different
ticks). -/
theorem C6_ledger_diff (s : CollectionGoal) (w : GridWorld)
    (hdone : s.is_done = false)
    (hnodup : (s.dropped_objects.map Prod.fst).Nodup) :
    (checkCompletion s w).2.dropped_objects
      = (ledgerDiff s.dropped_objects (currentDetected s w)).1 ∧
    (∀ (id : ObjId) (tk : Nat),
      (id, tk) ∈ (ledgerDiff s.dropped_objects (currentDetected s w)).1 ↔
        hasId (currentDetected s w) id = true ∧
          ((id, tk) ∈ s.dropped_objects ∨
            (tk = w.current_nr_ticks ∧ hasId s.dropped_objects id = false))) ∧
    ((ledgerDiff s.dropped_objects (currentDetected s w)).2 = true ↔
      (∃ p ∈ currentDetected s w, hasId s.dropped_objects p.1 = false) ∨
      (∃ q ∈ s.dropped_objects, hasId (currentDetected s w) q.1 = false)) ∧
    (((ledgerDiff s.dropped_objects (currentDetected s w)).1.map Prod.fst).Nodup) := by
  set d := currentDetected s w with hd
  have hdn : (d.map Prod.fst).Nodup := detected_nodup w _ _ _
  have hdt : ∀ p ∈ d, p.2 = w.current_nr_ticks := detected_ticks w _ _ _
  refine ⟨checkCompletion_ledger s w hdone, ?_, ?_, ?_⟩
  · intro id tk
    rw [ledgerDiff_eq _ d hdn, List.mem_append, List.mem_filter, List.mem_filter]
    constructor
    · rintro (⟨hmem, hq⟩ | ⟨hmem, hq⟩)
      · exact ⟨hq, Or.inl hmem⟩
      · refine ⟨mem_hasId hmem, Or.inr ⟨hdt _ hmem, by simpa using hq⟩⟩
    · rintro ⟨hq, hmem | ⟨htk, hnot⟩⟩
      · exact Or.inl ⟨hmem, hq⟩
      · right
        refine ⟨?_, by simpa using hnot⟩
        rcases (hasId_iff d id).mp hq with ⟨p, hp, hp1⟩
        have : p = (id, tk) := Prod.ext hp1 (by rw [hdt p hp, htk])
        exact this ▸ hp
  · exact ledgerDiff_flag_iff _ d hdn
  · rw [ledgerDiff_eq _ d hdn]
    rw [List.map_append]
    apply List.Nodup.append
    · exact ((List.filter_sublist _).map Prod.fst).nodup hnodup
    · exact ((List.filter_sublist _).map Prod.fst).nodup hdn
    · intro a ha hb
      rcases List.mem_map.mp ha with ⟨p, hp, hpa⟩
      rcases List.mem_map.mp hb with ⟨q, hq, hqa⟩
      have hpl : p ∈ s.dropped_objects := List.mem_of_mem_filter hp
      have hql : hasId s.dropped_objects q.1 = false := by
        have := List.of_mem_filter hq
        simpa using this
      have : hasId s.dropped_objects q.1 = true :=
        (hasId_iff _ _).mpr ⟨p, hpl, by rw [hpa, hqa]⟩
      simp_all

/-- C6 witness: the diff characterisation applied to the empty-ledger
resolved goal in the world `w3a` (red and blue blocks present),
instantiated at the red block's id and the current tick. -/
theorem C6_witness :
    (checkCompletion gRB w3a).2.dropped_objects
      = (ledgerDiff gRB.dropped_objects (currentDetected gRB w3a)).1 ∧
    (("br", 1) ∈ (ledgerDiff gRB.dropped_objects (currentDetected gRB w3a)).1 ↔
      hasId (currentDetected gRB w3a) "br" = true ∧
        (("br", 1) ∈ gRB.dropped_objects ∨
          (1 = w3a.current_nr_ticks ∧ hasId gRB.dropped_objects "br" = false))) ∧
    (((ledgerDiff gRB.dropped_objects (currentDetected gRB w3a)).1.map Prod.fst).Nodup) := by
  have h := C6_ledger_diff gRB w3a rfl (by decide)
  exact ⟨h.1, h.2.1 "br" 1, h.2.2.2⟩



theorem objQualifies_iff (w : GridWorld) (target : List Props) (id : ObjId) :
    objQualifies w target id = true ↔
      ∃ obj, w.lookupAll id = some obj ∧
        markerExcluded obj.properties = false ∧
        ∃ req ∈ target, req.subsetOf (flattenProps obj.properties) = true := by
  unfold objQualifies
  cases hl : w.lookupAll id with
  | none => simp
  | some obj =>
    simp only [Bool.and_eq_true, Bool.not_eq_true', Option.some.injEq]
    rw [qualifiesLoop_eq_any, List.any_eq_true]
    constructor
    · rintro ⟨hm, hq⟩
      exact ⟨obj, rfl, hm, hq⟩
    · rintro ⟨obj', hobj, hm, hq⟩
      cases hobj
      exact ⟨hm, hq⟩

/-- C7: Qualifying-set definition: on every tick, an id/tick pair
enters the detected set iff the tick is the current one, the id is
among the occupants gathered by the zero-radius queries over the cached
drop-off locations, and the object exists in the snapshot, is not a
drop-off-tile or collection-target marker, and has at least one
requirement set of the target contained (key by key, with equal values,
extra attributes ignored) in its flattened attributes; in particular an
object carrying the marker attributes never qualifies. -/
theorem C7_qualifying_set (s : CollectionGoal) (w : GridWorld)
    (id : ObjId) (tk : Nat) :
    ((id, tk) ∈ currentDetected s w ↔
      tk = w.current_nr_ticks ∧
        id ∈ w.objectsAtLocs (s.drop_off_locs.getD []) ∧
        ∃ obj, w.lookupAll id = some obj ∧
          markerExcluded obj.properties = false ∧
          ∃ req ∈ s.target.getD [],
            req.subsetOf (flattenProps obj.properties) = true) ∧
    ∀ obj : WorldObj, w.lookupAll id = some obj →
      markerExcluded obj.properties = true → (id, tk) ∉ currentDetected s w := by
  have hmain : (id, tk) ∈ currentDetected s w ↔
      tk = w.current_nr_ticks ∧
        id ∈ w.objectsAtLocs (s.drop_off_locs.getD []) ∧
        ∃ obj, w.lookupAll id = some obj ∧
          markerExcluded obj.properties = false ∧
          ∃ req ∈ s.target.getD [],
            req.subsetOf (flattenProps obj.properties) = true := by
    rw [currentDetected, detected_mem, objQualifies_iff]
  refine ⟨hmain, ?_⟩
  intro obj hobj hmark hc
  rcases (hmain.mp hc).2.2 with ⟨obj', hobj', hmark', _⟩
  rw [hobj] at hobj'
  cases hobj'
  rw [hmark] at hmark'
  exact absurd hmark' (by simp)

/-- C7 witness: in `w3a` the red block `br` is detected at tick 1 (it
occupies the zone location and matches the first requirement), while
the zone tile `tile0`, although spatially at the zone location, is
excluded by the marker guard. -/
theorem C7_witness :
    ("br", 1) ∈ currentDetected gRB w3a ∧
      ("tile0", 1) ∉ currentDetected gRB w3a := by
  constructor
  · exact (C7_qualifying_set gRB w3a "br" 1).1.mpr
      ⟨rfl, by decide, { location := (0, 0), properties := (blockAt (0, 0) "red").properties },
        rfl, rfl, pRed, show pRed ∈ [pRed, pBlue] from by simp, rfl⟩
  · exact (C7_qualifying_set gRB w3a "tile0" 1).2 tileZ rfl rfl


/-! ### Claims C9 and C10 -/


theorem checkCompletion_empty_zone (s : CollectionGoal) (w : GridWorld)
    (hl : s.drop_off_locs = some []) (hled : s.dropped_objects = [])
    (hdone : s.is_done = false) :
    checkCompletion s w = (.ok false, s) := by
  have hdet : currentDetected s w = [] := by
    rw [currentDetected, hl]
    rfl
  have hdiff : ledgerDiff s.dropped_objects (currentDetected s w) = ([], false) := by
    rw [hled, hdet]
    rfl
  simp only [checkCompletion, hdone, Bool.false_eq_true, if_false, hdiff,
    Bool.and_false]
  congr 1
  cases s
  simp_all

theorem goalReached_empty_zone (s : CollectionGoal) (w : GridWorld)
    (hl : s.drop_off_locs = some []) (hled : s.dropped_objects = [])
    (hdone : s.is_done = false) :
    (goalReached s w).1 = .ok false ∧
      (goalReached s w).2.drop_off_locs = some [] ∧
      (goalReached s w).2.dropped_objects = [] ∧
      (goalReached s w).2.is_done = false := by
  have core : ∀ s2 : CollectionGoal, s2.drop_off_locs = some [] →
      s2.dropped_objects = [] → s2.is_done = false → (∃ t, s2.target = some t) →
      goalReached s2 w = (.ok false, s2) := by
    intro s2 h1 h2 h3 ⟨t, h4⟩
    rw [goalReached_resolved s2 w [] t h1 h4, checkCompletion_empty_zone s2 w h1 h2 h3]
    simp only []
    rw [CollectionGoal.set_is_done_eq s2 false h3]
  cases ht : s.target with
  | none =>
    rw [goalReached_resolve_target s w [] hl ht]
    rw [core { s with target := some (findCollectionObjects s.area_name w) }
      hl hled hdone ⟨findCollectionObjects s.area_name w, rfl⟩]
    exact ⟨rfl, hl, hled, hdone⟩
  | some t =>
    rw [core s hl hled hdone ⟨t, ht⟩]
    exact ⟨rfl, hl, hled, hdone⟩

theorem emptyZone_run : ∀ (ws : List GridWorld) (s2 : CollectionGoal),
    s2.drop_off_locs = some [] → s2.dropped_objects = [] → s2.is_done = false →
    ∀ r ∈ (runGoal s2 ws).1, r = .ok false
  | [], s2, _, _, _ => by simp [runGoal]
  | w2 :: rest, s2, h1, h2, h3 => by
    have hstep := goalReached_empty_zone s2 w2 h1 h2 h3
    intro r hr
    simp only [runGoal] at hr
    rcases List.mem_cons.mp hr with he | hrest
    · rw [he, hstep.1]
    · exact emptyZone_run rest _ hstep.2.1 hstep.2.2.1 hstep.2.2.2 r hrest

/-- C10: after a first `goal_reached` call on a fresh evaluator has
raised the fatal zone-not-found `ValueError`, the empty drop-off
location list is already cached (it was assigned before the raise), so
every subsequent `goal_reached` call skips the emptiness check, finds
no occupants in the empty zone, and returns not-satisfied without
raising again — on any sequence of later snapshots, including ones in
which the zone would now resolve. -/
theorem C10_error_not_repeated (s : CollectionGoal) (w : GridWorld)
    (s' : CollectionGoal)
    (hl : s.drop_off_locs = none) (hled : s.dropped_objects = [])
    (hdone : s.is_done = false)
    (h : goalReached s w = (.error .valueError, s')) :
    s'.drop_off_locs = some [] ∧ s'.dropped_objects = [] ∧ s'.is_done = false ∧
      ∀ ws : List GridWorld, ∀ r ∈ (runGoal s' ws).1, r = .ok false := by
  cases hfe : (findDropOffLocations s.area_name w).isEmpty with
  | true =>
    rw [goalReached_no_zone s w hl (List.isEmpty_iff.mp hfe)] at h
    simp only [Prod.mk.injEq] at h
    rw [← h.2]
    exact ⟨rfl, hled, hdone, fun ws => emptyZone_run ws _ rfl hled hdone⟩
  | false =>
    rw [goalReached_locs_found s w _ hl rfl hfe] at h
    have := goalReached_no_valueError_of_locs
      { s with drop_off_locs := some (findDropOffLocations s.area_name w) } w
      (findDropOffLocations s.area_name w) rfl
    rw [h] at this
    exact absurd rfl this

/-- C10 witness: `g0` on `w8b` (no object named `Z`) raises the fatal
error with the empty zone cached; two further calls — one on the same
world, one on `w1` where the zone would now resolve and a matching
block is present — both return `false` without raising. -/
theorem C10_witness :
    (goalReached g0 w8b).2.drop_off_locs = some [] ∧
      (goalReached g0 w8b).2.dropped_objects = [] ∧
      (goalReached g0 w8b).2.is_done = false ∧
      (runGoal (goalReached g0 w8b).2 [w8b, w1]).1 = [.ok false, .ok false] := by
  have h := C10_error_not_repeated g0 w8b (goalReached g0 w8b).2 rfl rfl rfl rfl
  exact ⟨h.1, h.2.1, h.2.2.1, rfl⟩



theorem checkCompletion_nochange (s : CollectionGoal) (w : GridWorld)
    (hdone : s.is_done = false)
    (hch : (ledgerDiff s.dropped_objects (currentDetected s w)).2 = false) :
    checkCompletion s w
      = (.ok s.is_done,
         { s with dropped_objects := (ledgerDiff s.dropped_objects (currentDetected s w)).1 }) := by
  simp only [checkCompletion]
  rw [if_neg (show ¬(s.is_done = true) by simp [hdone])]
  simp only [hch, Bool.and_false, Bool.false_eq_true, if_false]

theorem specUnorderedSat_nil (reqs : List Props) (hne : reqs ≠ []) :
    specUnorderedSat [] reqs = false := by
  cases reqs with
  | nil => exact absurd rfl hne
  | cons a l => simp [specUnorderedSat]

theorem unordered_inv_core (s2 : CollectionGoal) (w : GridWorld)
    (l : List Loc) (t : List Props)
    (hl : s2.drop_off_locs = some l) (ht : s2.target = some t)
    (hio : s2.in_order = false)
    (hinv : t ≠ [] → s2.is_done = specUnorderedSat s2.dropped_objects t) :
    UnorderedInv (goalReached s2 w).2 := by
  cases hdone : s2.is_done with
  | true =>
    rw [goalReached_done s2 w l t hl ht hdone]
    exact ⟨hio, fun hc => absurd hc (by simp [ht]), fun reqs hr hne => by
      rw [ht] at hr
      cases hr
      exact hdone ▸ hinv hne, fun _ => by simp [hl]⟩
  | false =>
    cases hch : (ledgerDiff s2.dropped_objects (currentDetected s2 w)).2 with
    | true =>
      rw [goalReached_resolved s2 w l t hl ht,
        checkCompletion_unordered_updated s2 w hdone hio hch]
      refine ⟨hio, fun hc => absurd hc (by simp [ht]), ?_, fun _ => by simp [hl]⟩
      intro reqs hr hne
      simp only [ht] at hr ⊢
      cases hr
      rfl
    | false =>
      rw [goalReached_resolved s2 w l t hl ht,
        checkCompletion_nochange s2 w hdone hch]
      have hsame : (ledgerDiff s2.dropped_objects (currentDetected s2 w)).1
          = s2.dropped_objects :=
        ledgerDiff_nochange _ _ (detected_nodup w _ _ _) hch
      refine ⟨hio, fun hc => absurd hc (by simp [ht]), ?_, fun _ => by simp [hl]⟩
      intro reqs hr hne
      simp only [ht, Option.some.injEq] at hr
      subst hr
      show s2.is_done = specUnorderedSat (ledgerDiff s2.dropped_objects (currentDetected s2 w)).1 t
      rw [hsame]
      exact hinv hne

theorem unordered_inv_step (s : CollectionGoal) (w : GridWorld)
    (ih : UnorderedInv s) : UnorderedInv (goalReached s w).2 := by
  obtain ⟨hio, hnone, hsome, hlocs⟩ := ih
  cases hl : s.drop_off_locs with
  | none =>
    have htn : s.target = none := by
      by_contra hc
      exact hlocs hc hl
    obtain ⟨hdone, hled⟩ := hnone htn
    cases hfe : (findDropOffLocations s.area_name w).isEmpty with
    | true =>
      rw [goalReached_no_zone s w hl (List.isEmpty_iff.mp hfe)]
      exact ⟨hio, fun _ => ⟨hdone, hled⟩, fun reqs hr => absurd (htn ▸ hr) (by simp [htn]), fun hc => absurd htn (by
        intro he
        exact hc he)⟩
    | false =>
      rw [goalReached_locs_found s w _ hl rfl hfe]
      set s1 : CollectionGoal :=
        { s with drop_off_locs := some (findDropOffLocations s.area_name w) } with hs1
      have ht1 : s1.target = none := htn
      rw [goalReached_resolve_target s1 w _ rfl ht1]
      refine unordered_inv_core _ w (findDropOffLocations s.area_name w)
        (findCollectionObjects s1.area_name w) rfl rfl hio ?_
      intro hne
      show s.is_done = specUnorderedSat s.dropped_objects (findCollectionObjects s1.area_name w)
      rw [hdone, hled, specUnorderedSat_nil _ hne]
  | some l =>
    cases ht : s.target with
    | none =>
      obtain ⟨hdone, hled⟩ := hnone ht
      rw [goalReached_resolve_target s w l hl ht]
      refine unordered_inv_core _ w l (findCollectionObjects s.area_name w) hl rfl hio ?_
      intro hne
      show s.is_done = specUnorderedSat s.dropped_objects (findCollectionObjects s.area_name w)
      rw [hdone, hled, specUnorderedSat_nil _ hne]
    | some t =>
      refine unordered_inv_core s w l t hl ht hio ?_
      intro hne
      exact hsome t ht hne

theorem unordered_invariant (n tn : String) (s : CollectionGoal)
    (h : Reachable (CollectionGoal.init n tn false) s) : UnorderedInv s := by
  induction h with
  | refl =>
    refine ⟨rfl, fun _ => ⟨rfl, rfl⟩, ?_, fun hc => absurd rfl hc⟩
    intro reqs hr
    exact absurd hr (by simp [CollectionGoal.init])
  | step s2 w2 _ ih => exact unordered_inv_step s2 w2 ih



/-- C9 (amended): on a tick before completion where the ledger diff
reports no change, in unordered mode with a non-empty resolved
requirement sequence, the satisfaction value `goal_reached` returns
(the cached one) equals the full recomputation of the unordered count
comparison on the current ledger — and both are `false`.  The skip is
not equivalent to recomputation in the two excluded situations: with an
empty requirement sequence, and in ordered mode when object attributes
mutate without changing the qualifying id set (see the
counterexample). -/
theorem C9_nochange_skip (n tn : String) (s : CollectionGoal) (w : GridWorld)
    (reqs : List Props)
    (hreach : Reachable (CollectionGoal.init n tn false) s)
    (ht : s.target = some reqs) (hne : reqs ≠ [])
    (hdone : s.is_done = false)
    (hch : (ledgerDiff s.dropped_objects (currentDetected s w)).2 = false) :
    (goalReached s w).1
      = .ok (specUnorderedSat
          (ledgerDiff s.dropped_objects (currentDetected s w)).1 reqs) ∧
    (goalReached s w).1 = .ok false := by
  obtain ⟨hio, _, hsome, hlocs⟩ := unordered_invariant n tn s hreach
  have hl : ∃ l, s.drop_off_locs = some l := by
    cases hld : s.drop_off_locs with
    | none => exact absurd hld (hlocs (by simp [ht]))
    | some l => exact ⟨l, rfl⟩
  obtain ⟨l, hl⟩ := hl
  have hsame : (ledgerDiff s.dropped_objects (currentDetected s w)).1
      = s.dropped_objects :=
    ledgerDiff_nochange _ _ (detected_nodup w _ _ _) hch
  have hfalse : specUnorderedSat s.dropped_objects reqs = false := by
    rw [← hsome reqs ht hne, hdone]
  rw [goalReached_resolved s w l reqs hl ht, checkCompletion_nochange s w hdone hch]
  refine ⟨?_, ?_⟩
  · show Except.ok s.is_done = _
    rw [hdone, hsame, hfalse]
  · show Except.ok s.is_done = Except.ok false
    rw [hdone]

/-- C9 counterexample to the claim as stated, in its two excluded
situations.  (a) Empty requirement sequence: in the state `s4` (target
resolved empty) a `w4` tick reports no ledger change and `goal_reached`
returns the cached `false`, yet recomputing the unordered policy
`|ledger| == |requirements|` on that tick yields `0 == 0 = true`.
(b) Ordered mode: in the state `s9b` (ledger `Y@1, X@2` against
`[red, blue]`, unsatisfied because blue arrived first), the tick `w9c`
swaps the two blocks' colours in place, the qualifying id set is
unchanged so the diff reports no change and `goal_reached` returns the
cached `false`, yet the full rank walk over the current attributes now
matches `red, blue` in arrival order and yields satisfied. -/
theorem C9_counterexample :
    ((ledgerDiff s4.dropped_objects (currentDetected s4 w4)).2 = false ∧
      s4.is_done = false ∧ s4.in_order = false ∧ s4.target = some [] ∧
      (goalReached s4 w4).1 = .ok false ∧
      specUnorderedSat (ledgerDiff s4.dropped_objects (currentDetected s4 w4)).1 []
        = true) ∧
    ((ledgerDiff s9b.dropped_objects (currentDetected s9b w9c)).2 = false ∧
      s9b.is_done = false ∧ s9b.in_order = true ∧
      s9b.target = some [pRed, pBlue] ∧
      (goalReached s9b w9c).1 = .ok false ∧
      specOrderedSat w9c [pRed, pBlue]
          (ledgerDiff s9b.dropped_objects (currentDetected s9b w9c)).1 = true) :=
  ⟨⟨rfl, rfl, rfl, rfl, rfl, rfl⟩, ⟨rfl, rfl, rfl, rfl, rfl, rfl⟩⟩

/-- C9 witness: the amended no-change equivalence applied to the
reachable unordered state `sUa` (ledger holding the blue block against
`[red, blue]`) re-evaluated on the same snapshot `w2a`. -/
theorem C9_witness :
    (goalReached sUa w2a).1
      = .ok (specUnorderedSat
          (ledgerDiff sUa.dropped_objects (currentDetected sUa w2a)).1
          [pRed, pBlue]) ∧
    (goalReached sUa w2a).1 = .ok false :=
  C9_nochange_skip "Z" "Z_target" sUa w2a [pRed, pBlue]
    (Reachable.step g0 w2a Reachable.refl) rfl (by simp) rfl rfl


end BW4T
